import Mathlib

/- Verification of the expenditure_analyse pipeline.

A shallow embedding of the repository's data_loader, categorizer, analyzer,
adviser, question_answering and core modules, followed by theorems about the
classification, aggregation, query-answering and caching behaviour.

Modelling conventions:
  * pandas DataFrames become lists of records plus a frame-level flag for the
    presence of the 'category' column (the only column whose presence varies
    during the pipeline); a missing-column access is an explicit KeyError value.
  * machine floats become exact rationals (the spec states its numeric
    properties "within floating tolerance"; the rational statements are exact).
  * datetime values become seconds since 1970-01-01 (naive time), with civil
    calendar conversions for the month/week arithmetic of utils.py.
  * Python exceptions become Except values; a caught exception is a returned
    error value, a propagated one is an error result.
-/

/-- Lowercase a string character-wise. Models Python str.lower and the
pandas case=False matching; only ASCII letters change, which agrees with
Python on the repository's data. -/
def lowerChars (s : String) : List Char := s.data.map Char.toLower

/-- String.lower as a String. -/
def strLower (s : String) : String := String.mk (lowerChars s)

/-- The first list is a prefix of the second (character lists). -/
def listIsPre : List Char → List Char → Bool
  | [], _ => true
  | _ :: _, [] => false
  | a :: as, b :: bs => a == b && listIsPre as bs

/-- The needle occurs as a contiguous substring of the hay; models the
Python `in` operator on strings (empty needle always matches). -/
def listContains (needle : List Char) : List Char → Bool
  | [] => needle.isEmpty
  | b :: bs => listIsPre needle (b :: bs) || listContains needle bs

/-- Python `pat in hay` (case sensitive). -/
def containsSub (hay pat : String) : Bool := listContains pat.data hay.data

/-- pandas Series.str.contains(pat, case=False) for a plain keyword:
case-insensitive substring containment. The repository's keywords contain
no regex metacharacters, so substring semantics is the regex semantics. -/
def containsCI (hay pat : String) : Bool := listContains (lowerChars pat) (lowerChars hay)

/-- Codepoint-wise lexicographic strict order on char lists. -/
def charsLt : List Char → List Char → Bool
  | [], [] => false
  | [], _ :: _ => true
  | _ :: _, [] => false
  | a :: as, b :: bs =>
    if a.val < b.val then true else if b.val < a.val then false else charsLt as bs

/-- Python string ordering (codepoint lexicographic). -/
def strLt (a b : String) : Bool := charsLt a.data b.data

/-- Helper for dedupFirst: drop values already seen. -/
def dedupAux (seen : List String) : List String → List String
  | [] => []
  | x :: xs => if seen.contains x then dedupAux seen xs else x :: dedupAux (x :: seen) xs

/-- Distinct values of a list in first-occurrence order. -/
def dedupFirst (l : List String) : List String := dedupAux [] l

/-- Leap year in the proleptic Gregorian calendar (Python datetime). -/
def isLeapYear (y : Int) : Bool :=
  y.emod 4 == 0 && (y.emod 100 != 0 || y.emod 400 == 0)

/-- Number of days in a month (Python calendar rules). -/
def daysInMonth (y m : Int) : Int :=
  if m == 2 then (if isLeapYear y then 29 else 28)
  else if m == 4 || m == 6 || m == 9 || m == 11 then 30 else 31

/-- Days since 1970-01-01 of a civil date (standard civil-calendar algorithm). -/
def daysFromCivil (y m d : Int) : Int :=
  let yy := y - (if m ≤ 2 then 1 else 0)
  let era := Int.ediv yy 400
  let yoe := yy - era * 400
  let mp := Int.emod (m + 9) 12
  let doy := Int.ediv (153 * mp + 2) 5 + d - 1
  let doe := yoe * 365 + Int.ediv yoe 4 - Int.ediv yoe 100 + doy
  era * 146097 + doe - 719468

/-- Civil date (year, month, day) from days since 1970-01-01. -/
def civilFromDays (z0 : Int) : Int × Int × Int :=
  let z := z0 + 719468
  let era := Int.ediv z 146097
  let doe := z - era * 146097
  let yoe := Int.ediv (doe - Int.ediv doe 1460 + Int.ediv doe 36524 - Int.ediv doe 146096) 365
  let y := yoe + era * 400
  let doy := doe - (365 * yoe + Int.ediv yoe 4 - Int.ediv yoe 100)
  let mp := Int.ediv (5 * doy + 2) 153
  let d := doy - Int.ediv (153 * mp + 2) 5 + 1
  let m := mp + (if mp < 10 then 3 else -9)
  (y + (if m ≤ 2 then 1 else 0), m, d)

/-- A naive datetime as seconds since 1970-01-01 00:00:00. -/
def mkDT (y m d h mi s : Int) : Int :=
  daysFromCivil y m d * 86400 + h * 3600 + mi * 60 + s

def dtDay (t : Int) : Int := Int.ediv t 86400
def dtSecOfDay (t : Int) : Int := Int.emod t 86400

/-- The hour component of a timestamp (pandas Series.dt.hour). -/
def dt_hour (t : Int) : Int := Int.ediv (dtSecOfDay t) 3600

def dtMinute (t : Int) : Int := Int.emod (Int.ediv (dtSecOfDay t) 60) 60
def dtSecond (t : Int) : Int := Int.emod (dtSecOfDay t) 60

/-- replace(hour=0, minute=0, second=0, microsecond=0). -/
def startOfDay (t : Int) : Int := t - dtSecOfDay t

/-- replace(hour=23, minute=59, second=59, microsecond=999999); microseconds
are dropped, which leaves every whole-second comparison unchanged. -/
def endOfDay (t : Int) : Int := startOfDay t + 86399

/-- datetime.weekday(): Monday = 0. 1970-01-01 was a Thursday. -/
def weekdayOf (t : Int) : Int := Int.emod (dtDay t + 3) 7

def dtYear (t : Int) : Int := (civilFromDays (dtDay t)).1
def dtMonth (t : Int) : Int := (civilFromDays (dtDay t)).2.1
def dtDayOfMonth (t : Int) : Int := (civilFromDays (dtDay t)).2.2

/-- datetime.replace(day=n), keeping the time of day. -/
def dtReplaceDay (t n : Int) : Int :=
  mkDT (dtYear t) (dtMonth t) n (dt_hour t) (dtMinute t) (dtSecond t)

/-- t + timedelta(days=n). -/
def addDays (t n : Int) : Int := t + n * 86400

def padNat2 (n : Int) : String := if n < 10 then "0" ++ toString n else toString n

def padNat4 (n : Int) : String :=
  if n < 10 then "000" ++ toString n
  else if n < 100 then "00" ++ toString n
  else if n < 1000 then "0" ++ toString n
  else toString n

/-- strftime %Y-%m-%d. -/
def fmtYMD (t : Int) : String :=
  padNat4 (dtYear t) ++ "-" ++ padNat2 (dtMonth t) ++ "-" ++ padNat2 (dtDayOfMonth t)

/-- strftime %H:%M. -/
def fmtHM (t : Int) : String := padNat2 (dt_hour t) ++ ":" ++ padNat2 (dtMinute t)

/-- strftime %Y年%m月%d日. -/
def fmtCNDate (t : Int) : String :=
  padNat4 (dtYear t) ++ "年" ++ padNat2 (dtMonth t) ++ "月" ++ padNat2 (dtDayOfMonth t) ++ "日"

/-- Round to the nearest integer, ties to even (the rounding used by Python
float formatting; on the exact decimal data of the repository the two agree). -/
def roundHalfEven (q : ℚ) : Int :=
  let f := ⌊q⌋
  let r := q - (f : ℚ)
  if r < 1/2 then f else if 1/2 < r then f + 1 else if f.emod 2 == 0 then f else f + 1

def fmtFixed2Abs (q : ℚ) : String :=
  let n := roundHalfEven (q * 100)
  toString (Int.ediv n 100) ++ "." ++ padNat2 (Int.emod n 100)

/-- Python f-string {x:.2f}. -/
def fmtFixed2 (q : ℚ) : String :=
  if q < 0 then "-" ++ fmtFixed2Abs (-q) else fmtFixed2Abs q

/-- Python f-string {x:.0f}. -/
def fmtFixed0 (q : ℚ) : String :=
  if q < 0 then "-" ++ toString (roundHalfEven (-q)) else toString (roundHalfEven q)

/-- Python f-string {x:.2%}. -/
def fmtPercent2 (q : ℚ) : String := fmtFixed2 (q * 100) ++ "%"

/-- Python f-string {x:.0%}. -/
def fmtPercent0 (q : ℚ) : String := fmtFixed0 (q * 100) ++ "%"

/-- Right-align into a field of width w (Python {x:10.2f} padding). -/
def padLeftTo (w : Nat) (s : String) : String :=
  if s.length < w then String.mk (List.replicate (w - s.length) ' ') ++ s else s

/-- Value of a digit string. -/
def digitsVal (cs : List Char) : Nat := cs.foldl (fun n c => n * 10 + (c.toNat - 48)) 0

def allDigits (cs : List Char) : Bool := cs.all (·.isDigit)

/-- Parse a non-empty all-digit string. -/
def parseNatDigits (s : String) : Option Nat :=
  if !s.data.isEmpty && allDigits s.data then some (digitsVal s.data) else none

/-- Python int() restricted to the digit strings the hour-extraction regex can
produce. -/
def parseIntDigits (s : String) : Option Int := (parseNatDigits s).map Int.ofNat

/-- Split a char list at the first dot. -/
def splitAtDot : List Char → List Char × Option (List Char)
  | [] => ([], none)
  | c :: rest =>
    if c == '.' then ([], some rest)
    else
      let p := splitAtDot rest
      (c :: p.1, p.2)

/-- pandas to_numeric(errors="coerce") on the signed fixed-point decimal
strings of a bank statement; none models NaN (a coercion failure). -/
def parseAmount (s : String) : Option ℚ :=
  let cs := s.data
  let signed : Bool × List Char :=
    match cs with
    | c :: rest => if c == '-' then (true, rest) else (false, cs)
    | [] => (false, [])
  let sgn : ℚ := if signed.1 then -1 else 1
  match splitAtDot signed.2 with
  | (ip, none) =>
    if !ip.isEmpty && allDigits ip then some (sgn * (digitsVal ip : ℚ)) else none
  | (ip, some fp) =>
    if !ip.isEmpty && allDigits ip && allDigits fp then
      some (sgn * ((digitsVal ip : ℚ) + (digitsVal fp : ℚ) / (10 : ℚ) ^ fp.length))
    else none

/-- Parse "HH:MM" or "HH:MM:SS". -/
def parseTimePart (t : String) : Option (Int × Int × Int) :=
  match t.splitOn ":" with
  | [h, mi] =>
    match parseNatDigits h, parseNatDigits mi with
    | some hv, some mv => if hv ≤ 23 && mv ≤ 59 then some (hv, mv, 0) else none
    | _, _ => none
  | [h, mi, s] =>
    match parseNatDigits h, parseNatDigits mi, parseNatDigits s with
    | some hv, some mv, some sv =>
      if hv ≤ 23 && mv ≤ 59 && sv ≤ 59 then some (hv, mv, sv) else none
    | _, _, _ => none
  | _ => none

/-- Parse "YYYY-MM-DD" with calendar validation. -/
def parseDatePart (d : String) : Option (Int × Int × Int) :=
  match d.splitOn "-" with
  | [y, m, dd] =>
    match parseNatDigits y, parseNatDigits m, parseNatDigits dd with
    | some yv, some mv, some dv =>
      if 1 ≤ yv && yv ≤ 9999 && 1 ≤ mv && mv ≤ 12 && 1 ≤ dv
          && (dv : Int) ≤ daysInMonth (yv : Int) (mv : Int) then
        some ((yv : Int), (mv : Int), (dv : Int))
      else none
    | _, _, _ => none
  | _ => none

/-- pd.to_datetime on the ISO-style "YYYY-MM-DD[ HH:MM[:SS]]" strings the
repository's statements use; none models the conversion error. -/
def parseDateTime (s : String) : Option Int :=
  match s.splitOn " " with
  | [d] => (parseDatePart d).map (fun v => mkDT v.1 v.2.1 v.2.2 0 0 0)
  | [d, t] =>
    match parseDatePart d, parseTimePart t with
    | some v, some w => some (mkDT v.1 v.2.1 v.2.2 w.1 w.2.1 w.2.2)
    | _, _ => none
  | _ => none

/-- One transaction row of the processed DataFrame. The category field is
meaningful only when the owning frame's hasCategory flag is set. -/
structure Tx where
  date : Int
  hour : Int
  amount : ℚ
  description : String
  is_income : Bool
  expense_amount : ℚ
  income_amount : ℚ
  category : String
deriving DecidableEq

/-- A processed DataFrame: rows plus presence of the category column (the one
column whose presence changes during the pipeline). -/
structure Frame where
  rows : List Tx
  hasCategory : Bool
deriving DecidableEq

/-- A parsed CSV file: header names and cell rows. -/
structure CsvTable where
  headers : List String
  cells : List (List String)

/-- The column-mapping configuration used by this pipeline path. -/
structure ColumnMapping where
  date_col : String
  amount_col : String
  description_col : String

/-- Advice thresholds (defaults 0.20 and 0.10 merged upstream). -/
structure AdviceRules where
  high_dining_threshold : ℚ
  low_saving_threshold : ℚ

/-- The merged configuration that analyze_bank_statement works with. -/
structure AppConfig where
  column_mapping : ColumnMapping
  category_rules : List (String × List String)
  advice_rules : AdviceRules

/-- The Python exception kinds raised by this pipeline. -/
inductive PyErr where
  | fileNotFound (msg : String)
  | valueError (msg : String)
  | runtimeError (msg : String)
deriving DecidableEq

/-- A row as loaded by load_csv, before preprocessing. -/
structure RawTx where
  date_str : String
  time_str : String
  amount_str : String
  description : String

/-- Loaded DataFrame: raw rows plus presence of the 时间 column. -/
structure RawFrame where
  rows : List RawTx
  hasTime : Bool

def findColIdx (headers : List String) (name : String) : Option Nat :=
  headers.findIdx? (· == name)

def getCell (row : List String) (i : Nat) : String := row.getD i ""

/-- data_loader.load_csv: existence check, required-column check, renaming to
the standard internal names (时间 becomes time_str when present). -/
def load_csv (file : Option CsvTable) (m : ColumnMapping) (path : String) :
    Except PyErr RawFrame :=
  match file with
  | none => .error (.fileNotFound ("文件未找到: " ++ path))
  | some tb =>
    match [m.date_col, m.amount_col, m.description_col].find?
        (fun c => !tb.headers.contains c) with
    | some c =>
      .error (.valueError ("CSV文件中缺少必要列: \x27" ++ c ++ "\x27。请检查您的列映射配置。"))
    | none =>
      let di := (findColIdx tb.headers m.date_col).getD 0
      let ai := (findColIdx tb.headers m.amount_col).getD 0
      let si := (findColIdx tb.headers m.description_col).getD 0
      let ti := findColIdx tb.headers "时间"
      .ok { rows := tb.cells.map (fun r =>
              { date_str := getCell r di
                time_str := match ti with | some i => getCell r i | none => ""
                amount_str := getCell r ai
                description := getCell r si })
            hasTime := ti.isSome }

/-- data_loader.preprocess_data: date conversion (combined with time_str when
present), hour extraction, numeric amount conversion, is_income and the
magnitude split columns. The produced frame has no category column yet. -/
def preprocess_data (raw : RawFrame) (m : ColumnMapping) : Except PyErr Frame :=
  if (raw.rows.map (fun r =>
      parseDateTime (if raw.hasTime then r.date_str ++ " " ++ r.time_str else r.date_str))).any
      (·.isNone) then
    .error (.valueError ("日期列 \x27" ++ m.date_col ++ "\x27 格式不正确，无法转换为日期类型: "))
  else if (raw.rows.map (fun r => parseAmount r.amount_str)).any (·.isNone) then
    .error (.valueError ("金额列 \x27" ++ m.amount_col
      ++ "\x27 格式不正确，无法转换为数字类型或处理收入/支出: 金额列包含无法转换为数字的值。"))
  else
    .ok { rows := raw.rows.map (fun r =>
            let d := (parseDateTime (if raw.hasTime then r.date_str ++ " " ++ r.time_str
              else r.date_str)).getD 0
            let a := (parseAmount r.amount_str).getD 0
            { date := d
              hour := dt_hour d
              amount := a
              description := r.description
              is_income := decide (a > 0)
              expense_amount := if a < 0 then -a else 0
              income_amount := if a > 0 then a else 0
              category := "" })
          hasCategory := false }

/-- One keyword step of the 收入 branch of apply_category (the row-wise effect
of the df.loc mask assignment). -/
def row_rule_income (cat kw : String) (t : Tx) : Tx :=
  if containsCI t.description kw && t.is_income then { t with category := cat } else t

/-- One keyword step of the expense branch of apply_category: only expense
rows still carrying the default label are assigned. -/
def row_rule_expense (cat kw : String) (t : Tx) : Tx :=
  if containsCI t.description kw && !t.is_income && (t.category == "其他") then
    { t with category := cat }
  else t

/-- One (category, keywords) rule of apply_category. -/
def apply_rule (cat : String) (kws : List String) (rows : List Tx) : List Tx :=
  if cat == "收入" then
    kws.foldl (fun acc kw => acc.map (row_rule_income cat kw)) rows
  else
    kws.foldl (fun acc kw => acc.map (row_rule_expense cat kw)) rows

/-- categorizer.apply_category: default label 其他 for every row, then the
rules in iteration order; the result has the category column. -/
def apply_category (rules : List (String × List String)) (df : Frame) : Frame :=
  { rows := rules.foldl (fun acc r => apply_rule r.1 r.2 acc)
      (df.rows.map (fun t => { t with category := "其他" }))
    hasCategory := true }

def txAmounts (l : List Tx) : List ℚ := l.map (·.amount)

/-- pandas Series.min on a list (none for the empty series). -/
def minQ : List ℚ → Option ℚ
  | [] => none
  | x :: xs => some (xs.foldl min x)

/-- pandas Series.max on a list (none models the NaN of an empty series). -/
def maxQ : List ℚ → Option ℚ
  | [] => none
  | x :: xs => some (xs.foldl max x)

def insertStrAsc (x : String × ℚ) : List (String × ℚ) → List (String × ℚ)
  | [] => [x]
  | y :: ys => if strLt x.1 y.1 then x :: y :: ys else y :: insertStrAsc x ys

/-- Sort key/value pairs by key (groupby sorts its keys). -/
def sortPairsByKey (l : List (String × ℚ)) : List (String × ℚ) := l.foldr insertStrAsc []

/-- groupby("category")["amount"].sum(): per-category amount sums, keys in
sorted order as pandas produces them. -/
def groupSums (rows : List Tx) : List (String × ℚ) :=
  sortPairsByKey ((dedupFirst (rows.map (·.category))).map
    (fun c => (c, (txAmounts (rows.filter (fun t => t.category == c))).sum)))

/-- The analysis dictionary produced by analyze_statements. smallest_expense
is an Option: none models the NaN of max() over an empty filtered series. -/
structure AnalysisResult where
  total_income : ℚ
  total_expense : ℚ
  net_balance : ℚ
  category_expenses : List (String × ℚ)
  category_expense_percentages : List (String × ℚ)
  largest_expense : ℚ
  smallest_expense : Option ℚ
  largest_income : ℚ

/-- analyzer.analyze_statements (called on categorized rows). -/
def analyze_statements (rows : List Tx) : AnalysisResult :=
  let incomeRows := rows.filter (·.is_income)
  let expenseRows := rows.filter (fun t => !t.is_income)
  let total_income := (txAmounts incomeRows).sum
  let expSum := (txAmounts expenseRows).sum
  let category_expenses := (groupSums expenseRows).map (fun p => (p.1, |p.2|))
  { total_income := total_income
    total_expense := |expSum|
    net_balance := total_income + expSum
    category_expenses := category_expenses
    category_expense_percentages :=
      if |expSum| > 0 then
        category_expenses.map (fun p => (p.1, p.2 / |expSum| * 100))
      else []
    largest_expense := if expenseRows.isEmpty then 0 else (minQ (txAmounts expenseRows)).getD 0
    smallest_expense :=
      if expenseRows.isEmpty then some 0
      else maxQ (txAmounts (expenseRows.filter (fun t => decide (t.amount ≠ 0))))
    largest_income := if incomeRows.isEmpty then 0 else (maxQ (txAmounts incomeRows)).getD 0 }

def insertAmtDesc (x : String × ℚ) : List (String × ℚ) → List (String × ℚ)
  | [] => [x]
  | y :: ys => if y.2 ≤ x.2 then x :: y :: ys else y :: insertAmtDesc x ys

/-- Python sorted(key=amount, reverse=True): stable descending sort. -/
def sortAmtDesc (l : List (String × ℚ)) : List (String × ℚ) := l.foldr insertAmtDesc []

/-- dict.get(k, 0) on an association list. -/
def lookupQ (l : List (String × ℚ)) (k : String) : ℚ :=
  match l.find? (fun p => p.1 == k) with
  | some p => p.2
  | none => 0

/-- analyzer.generate_report. -/
def generate_report (a : AnalysisResult) : String :=
  let base := ["--- 银行流水分析报告 ---",
    "总收入: " ++ fmtFixed2 a.total_income,
    "总支出: -" ++ fmtFixed2 a.total_expense,
    "净结余: " ++ fmtFixed2 a.net_balance,
    "\n--- 各类别支出明细 ---"]
  let catLines :=
    if !a.category_expenses.isEmpty then
      (sortAmtDesc a.category_expenses).map (fun p =>
        p.1 ++ ": " ++ padLeftTo 10 (fmtFixed2 p.2) ++ " ("
          ++ fmtFixed2 (lookupQ a.category_expense_percentages p.1) ++ "%)")
    else ["没有发现支出数据。"]
  let overview := ["\n--- 交易概览 ---",
    "最大单笔支出: -" ++ fmtFixed2 |a.largest_expense|,
    "最小单笔支出: -" ++ (match a.smallest_expense with
      | some q => fmtFixed2 |q|
      | none => "nan"),
    "最大单笔收入: " ++ fmtFixed2 a.largest_income]
  String.intercalate "\n" (base ++ catLines ++ overview)

/-- adviser.generate_advice. -/
def generate_advice (a : AnalysisResult) (r : AdviceRules) : String :=
  let dining := lookupQ a.category_expense_percentages "餐饮"
  let high := r.high_dining_threshold * 100
  let m1 : List String :=
    if dining > high then
      ["您的餐饮支出占总支出的 " ++ fmtFixed2 dining ++ "%，高于建议的 " ++ fmtFixed0 high
        ++ "%。考虑适当控制餐饮消费，例如尝试在家做饭或减少外卖频率。"]
    else []
  let m2 : List String :=
    if a.total_income > 0 then
      if a.net_balance / a.total_income < r.low_saving_threshold then
        ["您的净结余占总收入的 " ++ fmtPercent2 (a.net_balance / a.total_income)
          ++ "，低于建议的 " ++ fmtPercent0 r.low_saving_threshold
          ++ "。建议您审视支出，制定更积极的储蓄计划。"]
      else []
    else if a.net_balance < 0 then ["本期没有收入，但有支出，请注意您的资金状况。"]
    else []
  let msgs := m1 ++ m2
  String.intercalate "\n"
    (if msgs.isEmpty then ["您的财务状况良好，支出结构合理。继续保持！"] else msgs)

/-- Series.idxmax on key/value pairs: key of the first maximal value. -/
def idxmaxGo (cur : String × ℚ) : List (String × ℚ) → String
  | [] => cur.1
  | q :: qs => if cur.2 < q.2 then idxmaxGo q qs else idxmaxGo cur qs

def idxmaxPairs : List (String × ℚ) → Option String
  | [] => none
  | p :: ps => some (idxmaxGo p ps)

def countEq (l : List String) (x : String) : Nat := (l.filter (· == x)).length

def modeMinGo (l : List String) (best : String × Nat) : List String → String
  | [] => best.1
  | c :: rest =>
    let n := countEq l c
    if best.2 < n || (n == best.2 && strLt c best.1) then modeMinGo l (c, n) rest
    else modeMinGo l best rest

/-- pandas Series.mode().iloc[0] on strings: among the most frequent values,
the least in string order (mode returns its values sorted); the source's
未知 default covers the empty series. -/
def modeMin (l : List String) : String :=
  match dedupFirst l with
  | [] => "未知"
  | c :: rest => modeMinGo l (c, countEq l c) rest

/-- utils.get_date_range_from_query: keyword-mapped calendar windows relative
to now; a trailing 30-day window when no keyword matches. -/
def get_date_range_from_query (query : String) (today : Int) : Int × Int :=
  let lq := strLower query
  if containsSub lq "今天" then (startOfDay today, endOfDay today)
  else if containsSub lq "昨天" then
    (startOfDay (addDays today (-1)), endOfDay (addDays today (-1)))
  else if containsSub lq "上周" || containsSub lq "过去一周" then
    let startOfThisWeek := addDays today (-(weekdayOf today))
    let endOfLastWeek := addDays startOfThisWeek (-1)
    (startOfDay (addDays endOfLastWeek (-6)), endOfDay endOfLastWeek)
  else if containsSub lq "本周" then
    (startOfDay (addDays today (-(weekdayOf today))),
     endOfDay (addDays today (6 - weekdayOf today)))
  else if containsSub lq "上月" || containsSub lq "过去一月" then
    let lastOfLastMonth := addDays (dtReplaceDay today 1) (-1)
    (startOfDay (dtReplaceDay lastOfLastMonth 1), endOfDay lastOfLastMonth)
  else if containsSub lq "本月" then
    let nextMonth := addDays (dtReplaceDay today 28) 4
    (startOfDay (dtReplaceDay today 1), endOfDay (addDays nextMonth (-(dtDayOfMonth nextMonth))))
  else (addDays today (-30), today)

/-- Anchored match of four digits followed by a literal. -/
def matchDigits4Then (lit : Char) : List Char → Option (Nat × List Char)
  | a :: b :: c :: d :: e :: rest =>
    if a.isDigit && b.isDigit && c.isDigit && d.isDigit && e == lit then
      some (digitsVal [a, b, c, d], rest)
    else none
  | _ => none

/-- Anchored greedy match of one or two digits followed by a literal
(regex \d\x7b1,2\x7d then the literal). -/
def matchDigits12Then (lit : Char) : List Char → Option (Nat × List Char)
  | a :: b :: c :: rest =>
    if a.isDigit && b.isDigit && c == lit then some (digitsVal [a, b], rest)
    else if a.isDigit && b == lit then some (digitsVal [a], c :: rest)
    else none
  | [a, b] => if a.isDigit && b == lit then some (digitsVal [a], []) else none
  | _ => none

/-- Anchored greedy match of one or two digits at the end of a pattern. -/
def matchDigits12End : List Char → Option (Nat × List Char)
  | a :: b :: rest =>
    if a.isDigit && b.isDigit then some (digitsVal [a, b], rest)
    else if a.isDigit then some (digitsVal [a], b :: rest)
    else none
  | [a] => if a.isDigit then some (digitsVal [a], []) else none
  | [] => none

/-- Pattern YYYY年MM月DD号 anchored at the current position. -/
def matchP1 (cs : List Char) : Option (Nat × Nat × Nat) :=
  match matchDigits4Then '年' cs with
  | none => none
  | some (y, r1) =>
    match matchDigits12Then '月' r1 with
    | none => none
    | some (m, r2) =>
      match matchDigits12Then '号' r2 with
      | none => none
      | some (d, _) => some (y, m, d)

/-- Pattern YYYY-MM-DD anchored at the current position. -/
def matchP2 (cs : List Char) : Option (Nat × Nat × Nat) :=
  match matchDigits4Then '-' cs with
  | none => none
  | some (y, r1) =>
    match matchDigits12Then '-' r1 with
    | none => none
    | some (m, r2) =>
      match matchDigits12End r2 with
      | none => none
      | some (d, _) => some (y, m, d)

/-- Pattern MM月DD号 anchored at the current position. -/
def matchP3 (cs : List Char) : Option (Nat × Nat) :=
  match matchDigits12Then '月' cs with
  | none => none
  | some (m, r1) =>
    match matchDigits12Then '号' r1 with
    | none => none
    | some (d, _) => some (m, d)

/-- re.search: try the anchored matcher at each position, leftmost wins. -/
def scanFor {α : Type} (m : List Char → Option α) : List Char → Option α
  | [] => none
  | c :: rest =>
    match m (c :: rest) with
    | some v => some v
    | none => scanFor m rest

/-- datetime(y, m, d) with CPython's validation order and error strings. -/
def mkValidDate (y m d : Int) : Except String (Option Int) :=
  if !(1 ≤ y && y ≤ 9999) then .error ("year " ++ toString y ++ " is out of range")
  else if !(1 ≤ m && m ≤ 12) then .error "month must be in 1..12"
  else if !(1 ≤ d && d ≤ daysInMonth y m) then .error "day is out of range for month"
  else .ok (some (mkDT y m d 0 0 0))

/-- utils.extract_date_from_query: the three date patterns in priority order;
the year of a bare MM月DD号 defaults to the current year. An out-of-range
date raises (datetime constructor), modeled as an error value. -/
def extract_date_from_query (query : String) (today : Int) : Except String (Option Int) :=
  match scanFor matchP1 query.data with
  | some v => mkValidDate (v.1 : Int) (v.2.1 : Int) (v.2.2 : Int)
  | none =>
    match scanFor matchP2 query.data with
    | some v => mkValidDate (v.1 : Int) (v.2.1 : Int) (v.2.2 : Int)
    | none =>
      match scanFor matchP3 query.data with
      | some v => mkValidDate (dtYear today) (v.1 : Int) (v.2 : Int)
      | none => .ok none

/-- The category-expense reply of the answerer cascade. Accessing the
category column of an uncategorized frame is a KeyError. -/
def category_expense_answer (df : Frame) (c : String) : Except String String :=
  if df.hasCategory then
    .ok ("您在" ++ c ++ "上的支出是 "
      ++ fmtFixed2 |(txAmounts (df.rows.filter (fun t => t.category == c && !t.is_income))).sum|
      ++ " 元。")
  else .error "\x27category\x27"

/-- The category-income reply of the answerer cascade. -/
def category_income_answer (df : Frame) (c : String) : Except String String :=
  if df.hasCategory then
    .ok ("您在" ++ c ++ "上的收入是 "
      ++ fmtFixed2 (txAmounts (df.rows.filter (fun t => t.category == c && t.is_income))).sum
      ++ " 元。")
  else .error "\x27category\x27"

/-- The hard-coded category list of answer_query's category loop. -/
def fixedCategories : List String := ["餐饮", "交通", "购物", "生活缴费", "娱乐", "其他"]

/-- The for-loop over the hard-coded categories: first matching pattern wins. -/
def categoryLoop (df : Frame) (lq : String) : List String → Option (Except String String)
  | [] => none
  | c :: rest =>
    if containsSub lq (c ++ "支出") || containsSub lq ("在" ++ c ++ "上花了多少") then
      some (category_expense_answer df c)
    else if containsSub lq (c ++ "收入") then some (category_income_answer df c)
    else categoryLoop df lq rest

/-- question_answering.answer_query: the ordered cascade of substring checks.
get_date_range_from_query always returns two (truthy) datetimes, so the
time-range block is always entered when reached. -/
def answer_query (df : Frame) (query : String) (today : Int) : Except String String :=
  let lq := strLower query
  if containsSub lq "总支出" || containsSub lq "一共花了多少钱" then
    .ok ("您的总支出是 "
      ++ fmtFixed2 |(txAmounts (df.rows.filter (fun t => !t.is_income))).sum| ++ " 元。")
  else if containsSub lq "总收入" || containsSub lq "一共赚了多少钱" then
    .ok ("您的总收入是 " ++ fmtFixed2 (txAmounts (df.rows.filter (·.is_income))).sum ++ " 元。")
  else if containsSub lq "净结余" || containsSub lq "还剩多少钱" then
    .ok ("您的净结余是 " ++ fmtFixed2 (txAmounts df.rows).sum ++ " 元。")
  else
    match categoryLoop df lq fixedCategories with
    | some r => r
    | none =>
      let rng := get_date_range_from_query query today
      let fdf := df.rows.filter (fun t => rng.1 ≤ t.date && t.date ≤ rng.2)
      if containsSub lq "花了多少钱" || containsSub lq "支出" then
        .ok ("从 " ++ fmtYMD rng.1 ++ " 到 " ++ fmtYMD rng.2 ++ "，您的总支出是 "
          ++ fmtFixed2 |(txAmounts (fdf.filter (fun t => !t.is_income))).sum| ++ " 元。")
      else if containsSub lq "赚了多少钱" || containsSub lq "收入" then
        .ok ("从 " ++ fmtYMD rng.1 ++ " 到 " ++ fmtYMD rng.2 ++ "，您的总收入是 "
          ++ fmtFixed2 (txAmounts (fdf.filter (·.is_income))).sum ++ " 元。")
      else if containsSub lq "花钱最多的地方" then
        let expenseInRange := fdf.filter (fun t => !t.is_income)
        if !expenseInRange.isEmpty then
          if df.hasCategory then
            .ok ("从 " ++ fmtYMD rng.1 ++ " 到 " ++ fmtYMD rng.2 ++ "，您花钱最多的地方是 "
              ++ (idxmaxPairs ((groupSums expenseInRange).map (fun p => (p.1, |p.2|)))).getD ""
              ++ "。")
          else .error "\x27category\x27"
        else .ok ("从 " ++ fmtYMD rng.1 ++ " 到 " ++ fmtYMD rng.2 ++ "，没有发现支出数据。")
      else if containsSub lq "做了什么" || containsSub lq "活动" then
        match extract_date_from_query query today with
        | .error e => .error e
        | .ok none => .ok "请提供具体的日期以便我查询当天的活动。"
        | .ok (some sp) =>
          let daily := df.rows.filter (fun t => dtDay t.date == dtDay sp)
          if !daily.isEmpty then
            .ok (fmtCNDate sp ++ " 的交易活动：\n" ++ String.intercalate "\n"
              (daily.map (fun t => "- " ++ fmtHM t.date ++ " " ++ t.description
                ++ " (" ++ fmtFixed2 t.amount ++ "元)")))
          else .ok (fmtCNDate sp ++ " 没有发现交易活动。")
      else
        .ok "抱歉，我无法理解您的问题。请尝试更具体的提问，例如：\x27我的总支出是多少？\x27 或 \x27上周我花钱最多的地方是哪里？\x27"

/-- question_answering.predict_activity. The df["hour"] assignment mutates
the passed-in frame, so the possibly-updated frame is returned alongside the
reply; an uncaught KeyError mid-way leaves the mutation in place. -/
def predict_activity (df : Frame) (time_str : String) : Frame × Except String String :=
  match parseIntDigits time_str with
  | none => (df, .ok "请提供一个有效的时间数字（例如：\x2712\x27 代表中午12点）。")
  | some h =>
    if !(0 ≤ h && h ≤ 23) then (df, .ok "请提供一个有效的24小时制时间（0-23）。")
    else
      let rows2 := df.rows.map (fun t => { t with hour := dt_hour t.date })
      let df2 : Frame := { df with rows := rows2 }
      let window := rows2.filter (fun t => h - 1 ≤ t.hour && t.hour ≤ h + 1)
      if window.isEmpty then
        (df2, .ok ("在 " ++ toString h ++ " 点前后没有发现历史交易数据，无法进行预测。"))
      else if !df2.hasCategory then (df2, .error "\x27category\x27")
      else
        let mfc := modeMin (window.map (·.category))
        let mfd := modeMin (window.map (·.description))
        let spend := (txAmounts (window.filter (fun t => !t.is_income))).sum
        let base := ["根据您在 " ++ toString h ++ " 点前后的历史交易数据，您通常会进行以下活动：",
          "- 最常见的类别是：" ++ mfc,
          "- 最常见的交易描述是：\x27" ++ mfd ++ "\x27"]
        let withSpend :=
          if spend < 0 then
            base ++ ["- 在此时间段内，您通常会支出 " ++ fmtFixed2 |spend| ++ " 元。"]
          else base
        let msgs :=
          if mfc == "餐饮" then withSpend ++ ["这可能意味着您在这个时间段通常会用餐或购买饮品。"]
          else if mfc == "交通" then withSpend ++ ["这可能意味着您在这个时间段通常会通勤或出行。"]
          else withSpend
        (df2, .ok (String.intercalate "\n" msgs))

/-- core's regex search for (\d\x7b1,2\x7d)[点时]: leftmost match, greedy. -/
def hourTokenScan : List Char → Option String
  | [] => none
  | a :: rest =>
    if a.isDigit then
      match rest with
      | b :: c :: _ =>
        if b.isDigit && (c == '点' || c == '时') then some (String.mk [a, b])
        else if b == '点' || b == '时' then some (String.mk [a])
        else hourTokenScan rest
      | [b] => if b == '点' || b == '时' then some (String.mk [a]) else hourTokenScan rest
      | [] => none
    else hourTokenScan rest

/-- The prediction-intent trigger words of core.query_bank_statement. -/
def prediction_words : List String := ["预测", "通常会", "经常会", "可能做", "习惯"]

/-- core.query_bank_statement over the module cache: a hard RuntimeError when
no data is loaded; otherwise intent split, with every error of the inner
processing caught and turned into the apologetic reply. The first component
is the cache slot after the call (predict_activity mutates it in place). -/
def query_bank_statement (cache : Option Frame) (query : String) (today : Int) :
    Option Frame × Except PyErr String :=
  match cache with
  | none =>
    (none, .error (.runtimeError "抱歉，目前没有可供查询的银行流水数据。请先加载并分析您的银行流水。"))
  | some df =>
    if prediction_words.any (fun w => containsSub query w) then
      match hourTokenScan query.data with
      | some ts =>
        let r := predict_activity df ts
        (some r.1, .ok (match r.2 with
          | .ok s => s
          | .error e => "抱歉，处理您的查询时发生错误：" ++ e))
      | none => (some df, .ok "请提供具体的时间点以便我进行更准确的预测（例如：\x27中午12点\x27）。")
    else
      match answer_query df query today with
      | .ok s => (some df, .ok s)
      | .error e => (some df, .ok ("抱歉，处理您的查询时发生错误：" ++ e))

/-- core's except-clauses: re-raise with a human-readable message. -/
def wrapLoadError (e : PyErr) (path : String) : PyErr :=
  match e with
  | .fileNotFound _ => .fileNotFound ("文件未找到: " ++ path)
  | .valueError m => .valueError ("CSV数据处理错误: " ++ m ++ ". 请检查文件格式和配置。")
  | e => e

/-- core.analyze_bank_statement over the module cache. Note the source caches
df.copy() right after preprocess_data and before apply_category, so the
returned cache slot holds the preprocessed, uncategorized frame. -/
def analyze_bank_statement (cache : Option Frame) (path : String) (file : Option CsvTable)
    (cfg : AppConfig) : Option Frame × Except PyErr String :=
  match load_csv file cfg.column_mapping path with
  | .error e => (cache, .error (wrapLoadError e path))
  | .ok raw =>
    match preprocess_data raw cfg.column_mapping with
    | .error e => (cache, .error (wrapLoadError e path))
    | .ok df =>
      let df2 := apply_category cfg.category_rules df
      let res := analyze_statements df2.rows
      let report := generate_report res
      let advice := generate_advice res cfg.advice_rules
      (some df, .ok (report ++ "\n\n--- 智能建议 ---\n" ++ advice))

/-- Splitting a sum of amounts along a Boolean predicate. -/
lemma sum_filter_split (p : Tx → Bool) (l : List Tx) :
    (txAmounts (l.filter p)).sum + (txAmounts (l.filter (fun t => !p t))).sum
      = (txAmounts l).sum := by
  induction l with
  | nil => simp [txAmounts]
  | cons t rest ih =>
    by_cases h : p t
    · simp [txAmounts, List.filter_cons, h] at *
      linarith
    · simp [txAmounts, List.filter_cons, h] at *
      linarith

/-- A list of nonpositive rationals has a nonpositive sum. -/
lemma sum_nonpos_of_all (l : List ℚ) (h : ∀ q ∈ l, q ≤ 0) : l.sum ≤ 0 := by
  induction l with
  | nil => simp
  | cons x xs ih =>
    simp only [List.sum_cons]
    have hx := h x (by simp)
    have hxs := ih (fun q hq => h q (by simp [hq]))
    linarith

lemma foldl_min_mem (a : ℚ) (l : List ℚ) : l.foldl min a = a ∨ l.foldl min a ∈ l := by
  induction l generalizing a with
  | nil => left; rfl
  | cons x xs ih =>
    rcases ih (min a x) with h | h
    · rcases min_choice a x with hc | hc
      · left; simp only [List.foldl_cons]; rw [h, hc]
      · right; simp only [List.foldl_cons]; rw [h, hc]; exact List.mem_cons_self x xs
    · right; exact List.mem_cons_of_mem x h

lemma foldl_min_le (a : ℚ) (l : List ℚ) :
    l.foldl min a ≤ a ∧ ∀ y ∈ l, l.foldl min a ≤ y := by
  induction l generalizing a with
  | nil => exact ⟨le_refl a, by simp⟩
  | cons x xs ih =>
    obtain ⟨h1, h2⟩ := ih (min a x)
    refine ⟨?_, ?_⟩
    · simp only [List.foldl_cons]
      exact le_trans h1 (min_le_left a x)
    · intro y hy
      rcases List.mem_cons.mp hy with rfl | hy2
      · simp only [List.foldl_cons]
        exact le_trans h1 (min_le_right a y)
      · exact h2 y hy2

lemma foldl_max_mem (a : ℚ) (l : List ℚ) : l.foldl max a = a ∨ l.foldl max a ∈ l := by
  induction l generalizing a with
  | nil => left; rfl
  | cons x xs ih =>
    rcases ih (max a x) with h | h
    · rcases max_choice a x with hc | hc
      · left; simp only [List.foldl_cons]; rw [h, hc]
      · right; simp only [List.foldl_cons]; rw [h, hc]; exact List.mem_cons_self x xs
    · right; exact List.mem_cons_of_mem x h

lemma foldl_max_ge (a : ℚ) (l : List ℚ) :
    a ≤ l.foldl max a ∧ ∀ y ∈ l, y ≤ l.foldl max a := by
  induction l generalizing a with
  | nil => exact ⟨le_refl a, by simp⟩
  | cons x xs ih =>
    obtain ⟨h1, h2⟩ := ih (max a x)
    refine ⟨?_, ?_⟩
    · simp only [List.foldl_cons]
      exact le_trans (le_max_left a x) h1
    · intro y hy
      rcases List.mem_cons.mp hy with rfl | hy2
      · simp only [List.foldl_cons]
        exact le_trans (le_max_right a y) h1
      · exact h2 y hy2

/-- minQ of a list returns a member that bounds every member from below. -/
lemma minQ_spec (l : List ℚ) (m : ℚ) (h : minQ l = some m) :
    m ∈ l ∧ ∀ y ∈ l, m ≤ y := by
  cases l with
  | nil => simp [minQ] at h
  | cons x xs =>
    simp only [minQ, Option.some.injEq] at h
    subst h
    obtain ⟨h1, h2⟩ := foldl_min_le x xs
    refine ⟨?_, ?_⟩
    · rcases foldl_min_mem x xs with hm | hm
      · rw [hm]; exact List.mem_cons_self x xs
      · exact List.mem_cons_of_mem x hm
    · intro y hy
      rcases List.mem_cons.mp hy with rfl | hy2
      · exact h1
      · exact h2 y hy2

/-- maxQ of a list returns a member that bounds every member from above. -/
lemma maxQ_spec (l : List ℚ) (m : ℚ) (h : maxQ l = some m) :
    m ∈ l ∧ ∀ y ∈ l, y ≤ m := by
  cases l with
  | nil => simp [maxQ] at h
  | cons x xs =>
    simp only [maxQ, Option.some.injEq] at h
    subst h
    obtain ⟨h1, h2⟩ := foldl_max_ge x xs
    refine ⟨?_, ?_⟩
    · rcases foldl_max_mem x xs with hm | hm
      · rw [hm]; exact List.mem_cons_self x xs
      · exact List.mem_cons_of_mem x hm
    · intro y hy
      rcases List.mem_cons.mp hy with rfl | hy2
      · exact h1
      · exact h2 y hy2

lemma insertStrAsc_perm (x : String × ℚ) (l : List (String × ℚ)) :
    (insertStrAsc x l).Perm (x :: l) := by
  induction l with
  | nil => exact List.Perm.refl _
  | cons y ys ih =>
    unfold insertStrAsc
    by_cases h : strLt x.1 y.1
    · simp only [h, if_true]
      exact List.Perm.refl _
    · simp only [h, if_false]
      exact (ih.cons y).trans (List.Perm.swap x y ys)

lemma sortPairsByKey_perm (l : List (String × ℚ)) : (sortPairsByKey l).Perm l := by
  induction l with
  | nil => exact List.Perm.refl _
  | cons p ps ih =>
    unfold sortPairsByKey at *
    exact (insertStrAsc_perm p _).trans (ih.cons p)

lemma mem_dedupAux (x : String) (seen l : List String) :
    x ∈ dedupAux seen l ↔ x ∈ l ∧ x ∉ seen := by
  induction l generalizing seen with
  | nil => simp [dedupAux]
  | cons a as ih =>
    unfold dedupAux
    by_cases h : a ∈ seen
    · rw [if_pos (List.elem_eq_true_of_mem h), ih seen]
      constructor
      · rintro ⟨h1, h2⟩
        exact ⟨List.mem_cons_of_mem a h1, h2⟩
      · rintro ⟨h1, h2⟩
        rcases List.mem_cons.mp h1 with rfl | h3
        · exact absurd h h2
        · exact ⟨h3, h2⟩
    · rw [if_neg (fun hc => h (List.mem_of_elem_eq_true hc))]
      constructor
      · intro hx
        rcases List.mem_cons.mp hx with rfl | hx2
        · exact ⟨List.mem_cons_self x as, h⟩
        · obtain ⟨h1, h2⟩ := (ih (a :: seen)).mp hx2
          exact ⟨List.mem_cons_of_mem a h1, fun hs => h2 (List.mem_cons_of_mem a hs)⟩
      · rintro ⟨h1, h2⟩
        by_cases hxa : x = a
        · subst hxa
          exact List.mem_cons_self x _
        · rcases List.mem_cons.mp h1 with rfl | h3
          · exact absurd rfl hxa
          · refine List.mem_cons_of_mem a ((ih (a :: seen)).mpr ⟨h3, ?_⟩)
            intro hs
            rcases List.mem_cons.mp hs with rfl | h4
            · exact hxa rfl
            · exact h2 h4

lemma nodup_dedupAux (seen l : List String) : (dedupAux seen l).Nodup := by
  induction l generalizing seen with
  | nil => exact List.nodup_nil
  | cons a as ih =>
    unfold dedupAux
    by_cases h : a ∈ seen
    · rw [if_pos (List.elem_eq_true_of_mem h)]
      exact ih seen
    · rw [if_neg (fun hc => h (List.mem_of_elem_eq_true hc))]
      refine List.Nodup.cons ?_ (ih (a :: seen))
      intro hmem
      exact ((mem_dedupAux a (a :: seen) as).mp hmem).2 (List.mem_cons_self a seen)

lemma mem_dedupFirst (x : String) (l : List String) : x ∈ dedupFirst l ↔ x ∈ l := by
  unfold dedupFirst
  rw [mem_dedupAux]
  simp

lemma nodup_dedupFirst (l : List String) : (dedupFirst l).Nodup := nodup_dedupAux [] l

/-- Summing the per-category filtered sums over a complete duplicate-free
category list gives the total sum. -/
lemma sum_over_cats (cats : List String) (rows : List Tx) (hnd : cats.Nodup)
    (hc : ∀ t ∈ rows, t.category ∈ cats) :
    (cats.map (fun c => (txAmounts (rows.filter (fun t => t.category == c))).sum)).sum
      = (txAmounts rows).sum := by
  induction cats generalizing rows with
  | nil =>
    have hrows : rows = [] := by
      cases rows with
      | nil => rfl
      | cons t ts => exact absurd (hc t (List.mem_cons_self t ts)) (List.not_mem_nil _)
    subst hrows
    simp [txAmounts]
  | cons c cs ih =>
    obtain ⟨hcn, hnd2⟩ := List.nodup_cons.mp hnd
    have hsub : ∀ c2 ∈ cs, rows.filter (fun t => t.category == c2)
        = (rows.filter (fun t => !(t.category == c))).filter (fun t => t.category == c2) := by
      intro c2 hc2
      rw [List.filter_filter]
      apply List.filter_congr
      intro t ht
      cases hb : (t.category == c2) with
      | true =>
        have he : t.category = c2 := eq_of_beq hb
        have hne : (t.category == c) = false := by
          apply beq_eq_false_iff_ne.mpr
          rw [he]
          intro hcc
          exact hcn (hcc ▸ hc2)
        simp [hne]
      | false => simp [hb]
    have hcongr : cs.map (fun c2 => (txAmounts (rows.filter (fun t => t.category == c2))).sum)
        = cs.map (fun c2 => (txAmounts ((rows.filter (fun t => !(t.category == c))).filter
            (fun t => t.category == c2))).sum) := by
      apply List.map_congr_left
      intro c2 hc2
      rw [hsub c2 hc2]
    have hih := ih (rows.filter (fun t => !(t.category == c))) hnd2 (by
      intro t ht
      obtain ⟨htr, htc⟩ := List.mem_filter.mp ht
      have := hc t htr
      rcases List.mem_cons.mp this with heq | hmem
      · exfalso
        rw [heq] at htc
        simp at htc
      · exact hmem)
    calc ((c :: cs).map (fun c2 => (txAmounts (rows.filter (fun t => t.category == c2))).sum)).sum
        = (txAmounts (rows.filter (fun t => t.category == c))).sum
          + (cs.map (fun c2 => (txAmounts (rows.filter (fun t => t.category == c2))).sum)).sum := by
          simp
      _ = (txAmounts (rows.filter (fun t => t.category == c))).sum
          + (txAmounts (rows.filter (fun t => !(t.category == c)))).sum := by
          rw [hcongr, hih]
      _ = (txAmounts rows).sum := sum_filter_split (fun t => t.category == c) rows

/-- The values of groupSums add up to the total amount sum. -/
lemma groupSums_values_sum (rows : List Tx) :
    ((groupSums rows).map (fun p => p.2)).sum = (txAmounts rows).sum := by
  unfold groupSums
  rw [((sortPairsByKey_perm _).map (fun p => p.2)).sum_eq, List.map_map]
  exact sum_over_cats _ rows (nodup_dedupFirst _)
    (fun t ht => (mem_dedupFirst _ _).mpr (List.mem_map.mpr ⟨t, ht, rfl⟩))

/-- Every groupSums entry is the filtered sum for its own key. -/
lemma mem_groupSums (rows : List Tx) (p : String × ℚ) (hp : p ∈ groupSums rows) :
    p.2 = (txAmounts (rows.filter (fun t => t.category == p.1))).sum := by
  unfold groupSums at hp
  have hmem := (sortPairsByKey_perm _).mem_iff.mp hp
  obtain ⟨c, _, hpc⟩ := List.mem_map.mp hmem
  rw [← hpc]

lemma sum_map_neg {α : Type} (l : List α) (f : α → ℚ) :
    (l.map (fun a => -(f a))).sum = -((l.map f).sum) := by
  induction l with
  | nil => simp
  | cons x xs ih => simp [ih]; ring

lemma sum_map_scale {α : Type} (l : List α) (f : α → ℚ) (k : ℚ) :
    (l.map (fun a => f a * k)).sum = (l.map f).sum * k := by
  induction l with
  | nil => simp
  | cons x xs ih => simp [ih]; ring

lemma minQ_of_ne_nil (l : List ℚ) (h : l ≠ []) : ∃ m, minQ l = some m := by
  cases l with
  | nil => exact absurd rfl h
  | cons x xs => exact ⟨xs.foldl min x, rfl⟩

lemma maxQ_of_ne_nil (l : List ℚ) (h : l ≠ []) : ∃ m, maxQ l = some m := by
  cases l with
  | nil => exact absurd rfl h
  | cons x xs => exact ⟨xs.foldl max x, rfl⟩

/-- C4: for every transaction set given to analyze_statements whose expense
rows carry nonpositive amounts (the invariant preprocess_data establishes via
is_income = amount > 0), the reported total_income minus the reported
total_expense (a positive magnitude) equals net_balance, and net_balance is
the sum of all signed amounts. -/
theorem claim_C4 (rows : List Tx)
    (hsign : ∀ t ∈ rows, t.is_income = false → t.amount ≤ 0) :
    (analyze_statements rows).total_income - (analyze_statements rows).total_expense
        = (analyze_statements rows).net_balance
      ∧ (analyze_statements rows).net_balance = (txAmounts rows).sum := by
  have hexp : ∀ q ∈ txAmounts (rows.filter (fun t => !t.is_income)), q ≤ 0 := by
    intro q hq
    obtain ⟨t, ht, rfl⟩ := List.mem_map.mp hq
    obtain ⟨htr, hti⟩ := List.mem_filter.mp ht
    exact hsign t htr (by simpa using hti)
  have hS : (txAmounts (rows.filter (fun t => !t.is_income))).sum ≤ 0 :=
    sum_nonpos_of_all _ hexp
  have habs : |(txAmounts (rows.filter (fun t => !t.is_income))).sum|
      = -(txAmounts (rows.filter (fun t => !t.is_income))).sum := abs_of_nonpos hS
  have hsplit := sum_filter_split (fun t => t.is_income) rows
  have h1 : (analyze_statements rows).total_income
      = (txAmounts (rows.filter (fun t => t.is_income))).sum := rfl
  have h2 : (analyze_statements rows).total_expense
      = |(txAmounts (rows.filter (fun t => !t.is_income))).sum| := rfl
  have h3 : (analyze_statements rows).net_balance
      = (txAmounts (rows.filter (fun t => t.is_income))).sum
        + (txAmounts (rows.filter (fun t => !t.is_income))).sum := rfl
  constructor
  · rw [h1, h2, h3, habs]
    ring
  · rw [h3]
    exact hsplit

/-- C5: for every transaction set whose expense rows carry nonpositive
amounts, the category_expense_percentages values sum to exactly 100 whenever
total_expense > 0, and the mapping is empty whenever total_expense = 0, the
branch in which no division happens at all. -/
theorem claim_C5 (rows : List Tx)
    (hsign : ∀ t ∈ rows, t.is_income = false → t.amount ≤ 0) :
    ((analyze_statements rows).total_expense > 0 →
        (((analyze_statements rows).category_expense_percentages).map (fun p => p.2)).sum = 100)
      ∧ ((analyze_statements rows).total_expense = 0 →
        (analyze_statements rows).category_expense_percentages = []) := by
  have hexp : ∀ q ∈ txAmounts (rows.filter (fun t => !t.is_income)), q ≤ 0 := by
    intro q hq
    obtain ⟨t, ht, rfl⟩ := List.mem_map.mp hq
    obtain ⟨htr, hti⟩ := List.mem_filter.mp ht
    exact hsign t htr (by simpa using hti)
  have h2 : (analyze_statements rows).total_expense
      = |(txAmounts (rows.filter (fun t => !t.is_income))).sum| := rfl
  have hpe : (analyze_statements rows).category_expense_percentages
      = if |(txAmounts (rows.filter (fun t => !t.is_income))).sum| > 0 then
          ((groupSums (rows.filter (fun t => !t.is_income))).map (fun p => (p.1, |p.2|))).map
            (fun p => (p.1, p.2 / |(txAmounts (rows.filter (fun t => !t.is_income))).sum| * 100))
        else [] := rfl
  have hg : ∀ p ∈ groupSums (rows.filter (fun t => !t.is_income)), p.2 ≤ 0 := by
    intro p hp
    rw [mem_groupSums _ p hp]
    apply sum_nonpos_of_all
    intro q hq
    obtain ⟨t, ht, rfl⟩ := List.mem_map.mp hq
    exact hexp t.amount (List.mem_map.mpr ⟨t, (List.mem_filter.mp ht).1, rfl⟩)
  have habsum : ((groupSums (rows.filter (fun t => !t.is_income))).map (fun p => |p.2|)).sum
      = -(txAmounts (rows.filter (fun t => !t.is_income))).sum := by
    have hcg : (groupSums (rows.filter (fun t => !t.is_income))).map (fun p => |p.2|)
        = (groupSums (rows.filter (fun t => !t.is_income))).map (fun p => -(p.2)) := by
      apply List.map_congr_left
      intro p hp
      exact abs_of_nonpos (hg p hp)
    rw [hcg, sum_map_neg, groupSums_values_sum]
  constructor
  · intro hT
    rw [h2] at hT
    rw [hpe, if_pos hT, List.map_map, List.map_map]
    have hstep : ((fun p : String × ℚ => p.2)
          ∘ (fun p : String × ℚ =>
              (p.1, p.2 / |(txAmounts (rows.filter (fun t => !t.is_income))).sum| * 100)))
          ∘ (fun p : String × ℚ => (p.1, |p.2|))
        = fun p : String × ℚ =>
            |p.2| * (100 / |(txAmounts (rows.filter (fun t => !t.is_income))).sum|) := by
      funext p
      show |p.2| / |(txAmounts (rows.filter (fun t => !t.is_income))).sum| * 100
        = |p.2| * (100 / |(txAmounts (rows.filter (fun t => !t.is_income))).sum|)
      ring
    rw [hstep, sum_map_scale, habsum]
    rw [abs_of_nonpos (sum_nonpos_of_all _ hexp)] at hT ⊢
    have hne : (txAmounts (rows.filter (fun t => !t.is_income))).sum ≠ 0 := by
      intro h0
      rw [h0] at hT
      simp at hT
    field_simp
  · intro hT
    rw [h2] at hT
    rw [hpe, if_neg]
    rw [hT]
    exact lt_irrefl 0

/-- C9: for every transaction set whose expense rows carry nonpositive
amounts, largest_expense is the amount of an expense transaction of maximal
magnitude, smallest_expense is the amount of a nonzero expense transaction of
minimal magnitude (exact zeros excluded), and both are 0 when no expense
transactions exist. -/
theorem claim_C9 (rows : List Tx)
    (hsign : ∀ t ∈ rows, t.is_income = false → t.amount ≤ 0) :
    (rows.filter (fun t => !t.is_income) = [] →
        (analyze_statements rows).largest_expense = 0
          ∧ (analyze_statements rows).smallest_expense = some 0)
      ∧ (rows.filter (fun t => !t.is_income) ≠ [] →
          ∃ t ∈ rows.filter (fun t => !t.is_income),
            (analyze_statements rows).largest_expense = t.amount
              ∧ ∀ u ∈ rows.filter (fun t => !t.is_income), |u.amount| ≤ |t.amount|)
      ∧ ((rows.filter (fun t => !t.is_income)).filter (fun t => decide (t.amount ≠ 0)) ≠ [] →
          ∃ t ∈ (rows.filter (fun t => !t.is_income)).filter (fun t => decide (t.amount ≠ 0)),
            (analyze_statements rows).smallest_expense = some t.amount
              ∧ ∀ u ∈ (rows.filter (fun t => !t.is_income)).filter (fun t => decide (t.amount ≠ 0)),
                  |t.amount| ≤ |u.amount|) := by
  have hexp : ∀ t ∈ rows.filter (fun t => !t.is_income), t.amount ≤ 0 := by
    intro t ht
    obtain ⟨htr, hti⟩ := List.mem_filter.mp ht
    exact hsign t htr (by simpa using hti)
  have hlrg : (analyze_statements rows).largest_expense
      = if (rows.filter (fun t => !t.is_income)).isEmpty then 0
        else (minQ (txAmounts (rows.filter (fun t => !t.is_income)))).getD 0 := rfl
  have hsml : (analyze_statements rows).smallest_expense
      = if (rows.filter (fun t => !t.is_income)).isEmpty then some 0
        else maxQ (txAmounts ((rows.filter (fun t => !t.is_income)).filter
          (fun t => decide (t.amount ≠ 0)))) := rfl
  refine ⟨?_, ?_, ?_⟩
  · intro hnil
    have he : (rows.filter (fun t => !t.is_income)).isEmpty = true := by
      rw [hnil]
      rfl
    rw [hlrg, hsml, if_pos he, if_pos he]
    exact ⟨rfl, rfl⟩
  · intro hne
    have he : (rows.filter (fun t => !t.is_income)).isEmpty = false := by
      cases hl : rows.filter (fun t => !t.is_income) with
      | nil => exact absurd hl hne
      | cons a as => rfl
    have hmne : txAmounts (rows.filter (fun t => !t.is_income)) ≠ [] := by
      intro h0
      cases hl : rows.filter (fun t => !t.is_income) with
      | nil => exact hne hl
      | cons a as =>
        rw [hl] at h0
        exact absurd h0 (by simp [txAmounts])
    obtain ⟨m, hm⟩ := minQ_of_ne_nil _ hmne
    obtain ⟨hmem, hle⟩ := minQ_spec _ m hm
    obtain ⟨t, ht, hta⟩ := List.mem_map.mp hmem
    refine ⟨t, ht, ?_, ?_⟩
    · rw [hlrg, if_neg (by rw [he]; exact Bool.false_ne_true), hm, hta]
      rfl
    · intro u hu
      have h1 : m ≤ u.amount := hle u.amount (List.mem_map.mpr ⟨u, hu, rfl⟩)
      have h2 : u.amount ≤ 0 := hexp u hu
      have h3 : t.amount ≤ 0 := hexp t ht
      rw [abs_of_nonpos h2, abs_of_nonpos h3]
      linarith [hta]
  · intro hne
    have hne2 : rows.filter (fun t => !t.is_income) ≠ [] := by
      intro h0
      rw [h0] at hne
      exact hne rfl
    have he : (rows.filter (fun t => !t.is_income)).isEmpty = false := by
      cases hl : rows.filter (fun t => !t.is_income) with
      | nil => exact absurd hl hne2
      | cons a as => rfl
    have hmne : txAmounts ((rows.filter (fun t => !t.is_income)).filter
        (fun t => decide (t.amount ≠ 0))) ≠ [] := by
      intro h0
      cases hl : (rows.filter (fun t => !t.is_income)).filter (fun t => decide (t.amount ≠ 0)) with
      | nil => exact hne hl
      | cons a as =>
        rw [hl] at h0
        exact absurd h0 (by simp [txAmounts])
    obtain ⟨m, hm⟩ := maxQ_of_ne_nil _ hmne
    obtain ⟨hmem, hge⟩ := maxQ_spec _ m hm
    obtain ⟨t, ht, hta⟩ := List.mem_map.mp hmem
    refine ⟨t, ht, ?_, ?_⟩
    · rw [hsml, if_neg (by rw [he]; exact Bool.false_ne_true), hm, hta]
    · intro u hu
      have h1 : u.amount ≤ m := hge u.amount (List.mem_map.mpr ⟨u, hu, rfl⟩)
      have h2 : u.amount ≤ 0 := hexp u (List.mem_filter.mp hu).1
      have h3 : t.amount ≤ 0 := hexp t (List.mem_filter.mp ht).1
      rw [abs_of_nonpos h2, abs_of_nonpos h3]
      linarith [hta]

/-- C3: a failing analyze_bank_statement call leaves the cache slot exactly
as it was. Every error exit of the load pipeline (missing file, missing
column, bad date, bad amount) happens before the cache assignment. -/
theorem claim_C3 (cache : Option Frame) (path : String) (file : Option CsvTable)
    (cfg : AppConfig) (e : PyErr)
    (herr : (analyze_bank_statement cache path file cfg).2 = .error e) :
    (analyze_bank_statement cache path file cfg).1 = cache := by
  unfold analyze_bank_statement at herr ⊢
  split at herr
  · rfl
  · split at herr
    · rfl
    · simp at herr

/-- Every query against a loaded cache produces an ok reply (inner errors
are converted into the apology string). -/
lemma query_some_ok (df : Frame) (query : String) (today : Int) :
    ∃ s, (query_bank_statement (some df) query today).2 = Except.ok s := by
  unfold query_bank_statement
  dsimp only
  by_cases htr : (prediction_words.any fun w => containsSub query w) = true
  · rw [if_pos htr]
    cases hh : hourTokenScan query.data with
    | some ts => exact ⟨_, rfl⟩
    | none => exact ⟨_, rfl⟩
  · rw [if_neg htr]
    cases ha : answer_query df query today with
    | ok s => exact ⟨s, rfl⟩
    | error e => exact ⟨_, rfl⟩

/-- C2: query_bank_statement raises the distinguishable not-loaded
RuntimeError exactly when the cache is empty; with a loaded cache every call
returns an ok reply, and an inner processing error surfaces as the apologetic
string rather than as an exception. -/
theorem claim_C2 (cache : Option Frame) (query : String) (today : Int) :
    ((query_bank_statement cache query today).2
        = .error (.runtimeError "抱歉，目前没有可供查询的银行流水数据。请先加载并分析您的银行流水。")
      ↔ cache = none)
    ∧ (∀ df, cache = some df →
        ∃ s, (query_bank_statement cache query today).2 = Except.ok s)
    ∧ (∀ df e, cache = some df →
        prediction_words.any (fun w => containsSub query w) = false →
        answer_query df query today = .error e →
        (query_bank_statement cache query today).2
          = .ok ("抱歉，处理您的查询时发生错误：" ++ e)) := by
  cases cache with
  | none =>
    refine ⟨⟨fun _ => rfl, fun _ => rfl⟩, ?_, ?_⟩
    · intro df h
      exact absurd h (by simp)
    · intro df e h
      exact absurd h (by simp)
  | some df =>
    obtain ⟨s, hs⟩ := query_some_ok df query today
    refine ⟨⟨?_, ?_⟩, ?_, ?_⟩
    · intro h
      rw [hs] at h
      exact absurd h (by simp)
    · intro h
      exact absurd h (by simp)
    · intro df2 h
      obtain rfl : df2 = df := by
        injection h with h2
        exact h2.symm
      exact ⟨s, hs⟩
    · intro df2 e h htr ha
      obtain rfl : df2 = df := by
        injection h with h2
        exact h2.symm
      unfold query_bank_statement
      dsimp only
      rw [if_neg (by rw [htr]; simp), ha]

/-- predict_activity's df["hour"] assignment recomputes the hour column from
the date column; on a frame whose hour column already satisfies that
invariant (preprocess_data establishes it), the frame is unchanged. -/
lemma predict_keeps (df : Frame) (ts : String)
    (hinv : ∀ t ∈ df.rows, t.hour = dt_hour t.date) :
    (predict_activity df ts).1 = df := by
  have hmap : df.rows.map (fun t => { t with hour := dt_hour t.date }) = df.rows := by
    have h1 : ∀ t ∈ df.rows, ({ t with hour := dt_hour t.date } : Tx) = t := by
      intro t ht
      rw [← hinv t ht]
    calc df.rows.map (fun t => { t with hour := dt_hour t.date })
        = df.rows.map id := List.map_congr_left h1
      _ = df.rows := List.map_id _
  unfold predict_activity
  split
  · rfl
  · split
    · rfl
    · dsimp only
      split
      · simp [hmap]
      · split
        · simp [hmap]
        · simp [hmap]

/-- C8: with the cache invariant hour = date.hour (which holds for every
frame preprocess_data produces), both a query_bank_statement call and a
direct predict_activity call leave the cached frame unchanged: answer_query
never writes to the frame, and the predictor's hour-column write is the
identity. -/
theorem claim_C8 (df : Frame) (query : String) (today : Int) (ts : String)
    (hinv : ∀ t ∈ df.rows, t.hour = dt_hour t.date) :
    (query_bank_statement (some df) query today).1 = some df
      ∧ (predict_activity df ts).1 = df := by
  refine ⟨?_, predict_keeps df ts hinv⟩
  unfold query_bank_statement
  dsimp only
  by_cases htr : (prediction_words.any fun w => containsSub query w) = true
  · rw [if_pos htr]
    cases hh : hourTokenScan query.data with
    | some ts2 =>
      dsimp only
      rw [predict_keeps df ts2 hinv]
    | none => rfl
  · rw [if_neg htr]
    cases ha : answer_query df query today with
    | ok s => rfl
    | error e => rfl

/-- Spec-side label for income rows: 收入 exactly when some keyword of a rule
named 收入 occurs in the description, the default otherwise. -/
def income_label (rules : List (String × List String)) (desc : String) : String :=
  if rules.any (fun r => r.1 == "收入" && r.2.any (fun kw => containsCI desc kw)) then "收入"
  else "其他"

/-- Spec-side label for expense rows: the first rule in iteration order that
is not the income category, not the default label, and has a keyword occurring
in the description; the default 其他 otherwise. (A rule literally named 其他
re-assigns the default, so it can never end the search.) -/
def expense_label (rules : List (String × List String)) (desc : String) : String :=
  match rules.find? (fun r => r.1 != "收入" && r.1 != "其他"
      && r.2.any (fun kw => containsCI desc kw)) with
  | some r => r.1
  | none => "其他"

/-- The per-row effect of one apply_category rule. -/
def row_fold (cat : String) (kws : List String) (t : Tx) : Tx :=
  if cat == "收入" then kws.foldl (fun t kw => row_rule_income cat kw t) t
  else kws.foldl (fun t kw => row_rule_expense cat kw t) t

/-- The per-row effect of the whole rule pass. -/
def row_pipe (rules : List (String × List String)) (t : Tx) : Tx :=
  rules.foldl (fun t r => row_fold r.1 r.2 t) t

/-- A fold of column-wise map updates is a map of row-wise folds. -/
lemma foldl_map_fuse {α β : Type} (g : β → α → α) (l : List β) (rows : List α) :
    l.foldl (fun acc b => acc.map (g b)) rows
      = rows.map (fun a => l.foldl (fun a b => g b a) a) := by
  induction l generalizing rows with
  | nil => simp
  | cons b bs ih =>
    simp only [List.foldl_cons]
    rw [ih, List.map_map]
    rfl

lemma apply_rule_eq_map (cat : String) (kws : List String) (rows : List Tx) :
    apply_rule cat kws rows = rows.map (row_fold cat kws) := by
  by_cases h : (cat == "收入") = true
  · have hrf : row_fold cat kws = fun t => kws.foldl (fun t kw => row_rule_income cat kw t) t := by
      funext t
      simp only [row_fold, h, if_true]
    simp only [apply_rule, h, if_true, hrf]
    exact foldl_map_fuse (fun kw t => row_rule_income cat kw t) kws rows
  · have h2 : (cat == "收入") = false := by
      cases hx : (cat == "收入")
      · rfl
      · exact absurd hx h
    have hrf : row_fold cat kws = fun t => kws.foldl (fun t kw => row_rule_expense cat kw t) t := by
      funext t
      simp only [row_fold, h2, Bool.false_eq_true, if_false]
    simp only [apply_rule, h2, Bool.false_eq_true, if_false, hrf]
    exact foldl_map_fuse (fun kw t => row_rule_expense cat kw t) kws rows

lemma apply_category_rows (rules : List (String × List String)) (df : Frame) :
    (apply_category rules df).rows
      = df.rows.map (fun t => row_pipe rules { t with category := "其他" }) := by
  show rules.foldl (fun acc r => apply_rule r.1 r.2 acc)
      (df.rows.map (fun t => { t with category := "其他" }))
    = df.rows.map (fun t => row_pipe rules { t with category := "其他" })
  simp only [apply_rule_eq_map]
  rw [foldl_map_fuse (fun (r : String × List String) (t : Tx) => row_fold r.1 r.2 t) rules]
  rw [List.map_map]
  rfl

/-- The 收入-branch keyword pass on an income row assigns the category
exactly when some keyword matches. -/
lemma income_steps (cat : String) (kws : List String) (t : Tx)
    (hinc : t.is_income = true) :
    kws.foldl (fun t kw => row_rule_income cat kw t) t
      = if kws.any (fun kw => containsCI t.description kw) then { t with category := cat }
        else t := by
  revert hinc
  induction kws generalizing t with
  | nil => intro hinc; simp
  | cons kw rest ih =>
    intro hinc
    simp only [List.foldl_cons, List.any_cons]
    by_cases hk : containsCI t.description kw = true
    · have hstep : row_rule_income cat kw t = { t with category := cat } := by
        simp [row_rule_income, hk, hinc]
      rw [hstep, ih { t with category := cat } hinc]
      simp only [hk, Bool.true_or, if_true]
      split <;> rfl
    · have hk2 : containsCI t.description kw = false := by
        cases hx : containsCI t.description kw
        · rfl
        · exact absurd hx hk
      have hstep : row_rule_income cat kw t = t := by
        simp [row_rule_income, hk2]
      rw [hstep, ih t hinc]
      simp only [hk2, Bool.false_or]

/-- The 收入-branch keyword pass never touches an expense row. -/
lemma income_steps_noop (cat : String) (kws : List String) (t : Tx)
    (hni : t.is_income = false) :
    kws.foldl (fun t kw => row_rule_income cat kw t) t = t := by
  induction kws with
  | nil => rfl
  | cons kw rest ih =>
    simp only [List.foldl_cons]
    have hstep : row_rule_income cat kw t = t := by
      simp [row_rule_income, hni]
    rw [hstep, ih]

/-- The expense-branch keyword pass never touches an income row. -/
lemma expense_steps_noop_income (cat : String) (kws : List String) (t : Tx)
    (hinc : t.is_income = true) :
    kws.foldl (fun t kw => row_rule_expense cat kw t) t = t := by
  induction kws with
  | nil => rfl
  | cons kw rest ih =>
    simp only [List.foldl_cons]
    have hstep : row_rule_expense cat kw t = t := by
      simp [row_rule_expense, hinc]
    rw [hstep, ih]

/-- The expense-branch keyword pass never touches a row whose category is no
longer the default. -/
lemma expense_steps_noop (cat : String) (kws : List String) (t : Tx)
    (hc : (t.category == "其他") = false) :
    kws.foldl (fun t kw => row_rule_expense cat kw t) t = t := by
  induction kws with
  | nil => rfl
  | cons kw rest ih =>
    simp only [List.foldl_cons]
    have hstep : row_rule_expense cat kw t = t := by
      simp [row_rule_expense, hc]
    rw [hstep, ih]

/-- The expense-branch keyword pass on a default-labeled expense row assigns
the category exactly when some keyword matches. -/
lemma expense_steps_default (cat : String) (kws : List String) (t : Tx)
    (hni : t.is_income = false) (hc : t.category = "其他") :
    kws.foldl (fun t kw => row_rule_expense cat kw t) t
      = if kws.any (fun kw => containsCI t.description kw) then { t with category := cat }
        else t := by
  revert hni hc
  induction kws generalizing t with
  | nil => intro hni hc; simp
  | cons kw rest ih =>
    intro hni hc
    simp only [List.foldl_cons, List.any_cons]
    by_cases hk : containsCI t.description kw = true
    · have hbeq : (t.category == "其他") = true := by
        rw [hc]
        rfl
      have hstep : row_rule_expense cat kw t = { t with category := cat } := by
        simp [row_rule_expense, hk, hni, hbeq]
      rw [hstep]
      simp only [hk, Bool.true_or, if_true]
      by_cases hcat : cat = "其他"
      · have ht2 : ({ t with category := cat } : Tx) = t := by
          rw [hcat, ← hc]
        rw [ht2, ih t hni hc]
        split
        · exact ht2
        · rfl
      · have hbne : (({ t with category := cat } : Tx).category == "其他") = false := by
          show (cat == "其他") = false
          cases hx : (cat == "其他")
          · rfl
          · exact absurd (eq_of_beq hx) hcat
        rw [expense_steps_noop cat rest _ hbne]
    · have hk2 : containsCI t.description kw = false := by
        cases hx : containsCI t.description kw
        · rfl
        · exact absurd hx hk
      have hstep : row_rule_expense cat kw t = t := by
        simp [row_rule_expense, hk2]
      rw [hstep, ih t hni hc]
      simp only [hk2, Bool.false_or]

/-- One rule's effect on an income row. -/
lemma row_fold_income (cat : String) (kws : List String) (t : Tx)
    (hinc : t.is_income = true) :
    row_fold cat kws t
      = if cat == "收入" && kws.any (fun kw => containsCI t.description kw)
        then { t with category := cat } else t := by
  unfold row_fold
  by_cases h : (cat == "收入") = true
  · rw [if_pos h, income_steps cat kws t hinc]
    simp only [h, Bool.true_and]
  · have h2 : (cat == "收入") = false := by
      cases hx : (cat == "收入")
      · rfl
      · exact absurd hx h
    rw [if_neg (by rw [h2]; simp), expense_steps_noop_income cat kws t hinc]
    simp only [h2, Bool.false_and, Bool.false_eq_true, if_false]

/-- One rule's effect on a default-labeled expense row. -/
lemma row_fold_expense (cat : String) (kws : List String) (t : Tx)
    (hni : t.is_income = false) (hc : t.category = "其他") :
    row_fold cat kws t
      = if cat != "收入" && kws.any (fun kw => containsCI t.description kw)
        then { t with category := cat } else t := by
  unfold row_fold
  by_cases h : (cat == "收入") = true
  · rw [if_pos h, income_steps_noop cat kws t hni]
    have hbne : (cat != "收入") = false := by
      simp [bne, h]
    simp only [hbne, Bool.false_and, Bool.false_eq_true, if_false]
  · have h2 : (cat == "收入") = false := by
      cases hx : (cat == "收入")
      · rfl
      · exact absurd hx h
    rw [if_neg (by rw [h2]; simp), expense_steps_default cat kws t hni hc]
    have hbne : (cat != "收入") = true := by
      simp [bne, h2]
    simp only [hbne, Bool.true_and]

/-- No rule touches an expense row that left the default label. -/
lemma row_fold_expense_noop (cat : String) (kws : List String) (t : Tx)
    (hni : t.is_income = false) (hcne : t.category ≠ "其他") :
    row_fold cat kws t = t := by
  unfold row_fold
  have hc : (t.category == "其他") = false := by
    cases hx : (t.category == "其他")
    · rfl
    · exact absurd (eq_of_beq hx) hcne
  by_cases h : (cat == "收入") = true
  · rw [if_pos h]
    exact income_steps_noop cat kws t hni
  · have h2 : (cat == "收入") = false := by
      cases hx : (cat == "收入")
      · rfl
      · exact absurd hx h
    rw [if_neg (by rw [h2]; simp)]
    exact expense_steps_noop cat kws t hc

/-- The whole pass fixes an income row already labeled 收入. -/
lemma row_pipe_income_locked (rules : List (String × List String)) (t : Tx)
    (hinc : t.is_income = true) (hc : t.category = "收入") :
    row_pipe rules t = t := by
  induction rules with
  | nil => rfl
  | cons r rs ih =>
    show row_pipe rs (row_fold r.1 r.2 t) = t
    rw [row_fold_income r.1 r.2 t hinc]
    by_cases hcond : (r.1 == "收入" && r.2.any fun kw => containsCI t.description kw) = true
    · rw [if_pos hcond]
      have hr1 : r.1 = "收入" := eq_of_beq ((Bool.and_eq_true _ _).mp hcond).1
      have ht2 : ({ t with category := r.1 } : Tx) = t := by
        rw [hr1, ← hc]
      rw [ht2]
      exact ih
    · rw [if_neg hcond]
      exact ih

/-- The whole pass fixes an expense row that left the default label. -/
lemma row_pipe_expense_locked (rules : List (String × List String)) (t : Tx)
    (hni : t.is_income = false) (hcne : t.category ≠ "其他") :
    row_pipe rules t = t := by
  induction rules with
  | nil => rfl
  | cons r rs ih =>
    show row_pipe rs (row_fold r.1 r.2 t) = t
    rw [row_fold_expense_noop r.1 r.2 t hni hcne]
    exact ih

/-- The whole pass labels a default-labeled income row with income_label. -/
lemma row_pipe_income (rules : List (String × List String)) (t : Tx)
    (hinc : t.is_income = true) (hc : t.category = "其他") :
    row_pipe rules t = { t with category := income_label rules t.description } := by
  induction rules with
  | nil =>
    show t = { t with category := income_label [] t.description }
    have : income_label [] t.description = "其他" := rfl
    rw [this, ← hc]
  | cons r rs ih =>
    show row_pipe rs (row_fold r.1 r.2 t) = _
    rw [row_fold_income r.1 r.2 t hinc]
    by_cases hcond : (r.1 == "收入" && r.2.any fun kw => containsCI t.description kw) = true
    · rw [if_pos hcond]
      have hr1 : r.1 = "收入" := eq_of_beq ((Bool.and_eq_true _ _).mp hcond).1
      rw [row_pipe_income_locked rs { t with category := r.1 } hinc
        (by show r.1 = "收入"; exact hr1)]
      have hlab : income_label (r :: rs) t.description = "收入" := by
        simp [income_label, List.any_cons, hcond]
      rw [hlab, hr1]
    · rw [if_neg hcond]
      rw [ih]
      have hf : (r.1 == "收入" && r.2.any fun kw => containsCI t.description kw) = false := by
        cases hx : (r.1 == "收入" && r.2.any fun kw => containsCI t.description kw)
        · rfl
        · exact absurd hx hcond
      have hor : ((r.1 == "收入" && r.2.any fun kw => containsCI t.description kw)
            || rs.any fun r => r.1 == "收入" && r.2.any fun kw => containsCI t.description kw)
          = rs.any fun r => r.1 == "收入" && r.2.any fun kw => containsCI t.description kw := by
        rw [hf, Bool.false_or]
      have hlab : income_label (r :: rs) t.description = income_label rs t.description := by
        simp only [income_label, List.any_cons, hor]
      rw [hlab]

/-- The whole pass labels a default-labeled expense row with expense_label. -/
lemma row_pipe_expense (rules : List (String × List String)) (t : Tx)
    (hni : t.is_income = false) (hc : t.category = "其他") :
    row_pipe rules t = { t with category := expense_label rules t.description } := by
  induction rules with
  | nil =>
    show t = { t with category := expense_label [] t.description }
    have : expense_label [] t.description = "其他" := rfl
    rw [this, ← hc]
  | cons r rs ih =>
    show row_pipe rs (row_fold r.1 r.2 t) = _
    rw [row_fold_expense r.1 r.2 t hni hc]
    by_cases hcond : (r.1 != "收入" && r.2.any fun kw => containsCI t.description kw) = true
    · rw [if_pos hcond]
      obtain ⟨ha, hany⟩ := (Bool.and_eq_true _ _).mp hcond
      by_cases hr1 : r.1 = "其他"
      · have ht2 : ({ t with category := r.1 } : Tx) = t := by
          rw [hr1, ← hc]
        rw [ht2, ih]
        have hx : (r.1 != "其他") = false := by
          simp [bne, hr1]
        have hneg : ¬ (r.1 != "收入" && r.1 != "其他"
            && r.2.any fun kw => containsCI t.description kw) = true := by
          rw [hx, Bool.and_false, Bool.false_and]
          exact Bool.false_ne_true
        have hlab : expense_label (r :: rs) t.description = expense_label rs t.description := by
          unfold expense_label
          rw [@List.find?_cons_of_neg _ (fun r : String × List String => r.1 != "收入" && r.1 != "其他" && r.2.any fun kw => containsCI t.description kw) r rs hneg]
        rw [hlab]
      · have hx : (r.1 != "其他") = true := by
          simp [bne, hr1]
        have hpos : (r.1 != "收入" && r.1 != "其他"
            && r.2.any fun kw => containsCI t.description kw) = true := by
          rw [ha, hx, hany]
          rfl
        have hlab : expense_label (r :: rs) t.description = r.1 := by
          unfold expense_label
          rw [@List.find?_cons_of_pos _ (fun r : String × List String => r.1 != "收入" && r.1 != "其他" && r.2.any fun kw => containsCI t.description kw) r rs hpos]
        rw [row_pipe_expense_locked rs { t with category := r.1 } hni
          (by show r.1 ≠ "其他"; exact hr1)]
        rw [hlab]
    · rw [if_neg hcond]
      rw [ih]
      have hf : (r.1 != "收入" && r.2.any fun kw => containsCI t.description kw) = false := by
        cases hx : (r.1 != "收入" && r.2.any fun kw => containsCI t.description kw)
        · rfl
        · exact absurd hx hcond
      have hneg : ¬ (r.1 != "收入" && r.1 != "其他"
          && r.2.any fun kw => containsCI t.description kw) = true := by
        intro hx
        obtain ⟨hab, hc3⟩ := (Bool.and_eq_true _ _).mp hx
        obtain ⟨ha2, _⟩ := (Bool.and_eq_true _ _).mp hab
        rw [ha2, hc3] at hf
        simp at hf
      have hlab : expense_label (r :: rs) t.description = expense_label rs t.description := by
        unfold expense_label
        rw [@List.find?_cons_of_neg _ (fun r : String × List String => r.1 != "收入" && r.1 != "其他" && r.2.any fun kw => containsCI t.description kw) r rs hneg]
      rw [hlab]

/-- The full characterization of apply_category: the result has the category
column, and each row carries income_label or expense_label according to its
income flag; every other field is untouched. -/
lemma apply_category_spec (rules : List (String × List String)) (df : Frame) :
    apply_category rules df
      = { rows := df.rows.map (fun t =>
            { t with category := if t.is_income then income_label rules t.description
                                 else expense_label rules t.description })
          hasCategory := true } := by
  have hpt : ∀ t : Tx, row_pipe rules { t with category := "其他" }
      = { t with category := if t.is_income then income_label rules t.description
                             else expense_label rules t.description } := by
    intro t
    by_cases hti : t.is_income = true
    · rw [row_pipe_income rules { t with category := "其他" }
        (show t.is_income = true from hti) rfl]
      simp only [hti, if_true]
    · have hti2 : t.is_income = false := by
        cases hx : t.is_income
        · rfl
        · exact absurd hx hti
      rw [row_pipe_expense rules { t with category := "其他" }
        (show t.is_income = false from hti2) rfl]
      simp only [hti2, Bool.false_eq_true, if_false]
  have hrows := apply_category_rows rules df
  have hfun : (fun t : Tx => row_pipe rules { t with category := "其他" })
      = (fun t : Tx =>
          { t with category := if t.is_income then income_label rules t.description
                               else expense_label rules t.description }) := funext hpt
  rw [hfun] at hrows
  show Frame.mk (apply_category rules df).rows true = _
  rw [hrows]

/-- C6: the bulk dataframe classification is fully characterized row by row:
an income row gets income_label (so 收入-rule keywords apply only to rows
flagged as income), an expense row gets expense_label (the first matching
expense rule in iteration order wins over the default 其他, and once a row
has left the default label no later expense rule reclassifies it — the
first-match search is exactly what expense_label computes); no other field
changes and the category column is created. -/
theorem claim_C6 (rules : List (String × List String)) (df : Frame) :
    apply_category rules df
      = { rows := df.rows.map (fun t =>
            { t with category := if t.is_income then income_label rules t.description
                                 else expense_label rules t.description })
          hasCategory := true } :=
  apply_category_spec rules df

/-- C10: expense-category keyword rules are never applied to income-flagged
rows: after apply_category every income row carries 其他 or 收入, even when
its description contains an expense category's keywords. -/
theorem claim_C10 (rules : List (String × List String)) (df : Frame) (t : Tx)
    (ht : t ∈ (apply_category rules df).rows) (hinc : t.is_income = true) :
    t.category = "其他" ∨ t.category = "收入" := by
  rw [apply_category_spec] at ht
  obtain ⟨u, hu, heq⟩ := List.mem_map.mp ht
  have hui : u.is_income = true := by
    rw [← heq] at hinc
    exact hinc
  rw [← heq]
  show (if u.is_income = true then income_label rules u.description
        else expense_label rules u.description) = "其他"
    ∨ (if u.is_income = true then income_label rules u.description
        else expense_label rules u.description) = "收入"
  rw [if_pos hui]
  by_cases h : (rules.any fun r => r.1 == "收入"
      && r.2.any fun kw => containsCI u.description kw) = true
  · right
    simp [income_label, h]
  · left
    have h2 : (rules.any fun r => r.1 == "收入"
        && r.2.any fun kw => containsCI u.description kw) = false := by
      cases hx : (rules.any fun r => r.1 == "收入"
          && r.2.any fun kw => containsCI u.description kw)
      · rfl
      · exact absurd hx h
    simp [income_label, h2]

def witDate : Int := mkDT 2023 10 1 12 0 0

def witTxIncome : Tx :=
  { date := witDate
    hour := 12
    amount := 1000
    description := "工资入账"
    is_income := true
    expense_amount := 0
    income_amount := 1000
    category := "收入" }

def witTxExpense : Tx :=
  { date := witDate
    hour := 12
    amount := -50
    description := "星巴克咖啡"
    is_income := false
    expense_amount := 50
    income_amount := 0
    category := "餐饮" }

def witRows : List Tx := [witTxIncome, witTxExpense]

def witFrame : Frame := { rows := witRows, hasCategory := true }

def witCfg : AppConfig :=
  { column_mapping :=
      { date_col := "日期"
        amount_col := "金额"
        description_col := "商户/摘要" }
    category_rules := [("餐饮", ["咖啡", "麻辣烫", "外卖"]), ("交通", ["公交", "地铁"]),
      ("购物", ["超市", "便利店", "网购"]), ("娱乐", ["电影", "KTV"]), ("收入", ["工资"])]
    advice_rules :=
      { high_dining_threshold := 1/5
        low_saving_threshold := 1/10 } }

/-- Witness for C2 at a concrete loaded cache: the call returns ok. -/
theorem claim_C2_witness :
    ∃ s, (query_bank_statement (some witFrame) "我的总支出是多少？" witDate).2 = Except.ok s :=
  (claim_C2 (some witFrame) "我的总支出是多少？" witDate).2.1 witFrame rfl

/-- Witness for C3 at a concrete failing call (missing file). -/
theorem claim_C3_witness :
    ((analyze_bank_statement (some witFrame) "missing.csv" none witCfg).2
        = Except.error (PyErr.fileNotFound "文件未找到: missing.csv"))
      ∧ (analyze_bank_statement (some witFrame) "missing.csv" none witCfg).1 = some witFrame :=
  ⟨rfl, claim_C3 (some witFrame) "missing.csv" none witCfg
    (PyErr.fileNotFound "文件未找到: missing.csv") rfl⟩

/-- Witness for C4 at a concrete transaction set. -/
theorem claim_C4_witness :
    (∀ t ∈ witRows, t.is_income = false → t.amount ≤ 0)
      ∧ ((analyze_statements witRows).total_income - (analyze_statements witRows).total_expense
          = (analyze_statements witRows).net_balance
        ∧ (analyze_statements witRows).net_balance = (txAmounts witRows).sum) :=
  ⟨by decide, claim_C4 witRows (by decide)⟩

/-- Witness for C5 at a concrete transaction set. -/
theorem claim_C5_witness :
    (∀ t ∈ witRows, t.is_income = false → t.amount ≤ 0)
      ∧ (((analyze_statements witRows).total_expense > 0 →
          (((analyze_statements witRows).category_expense_percentages).map (fun p => p.2)).sum
            = 100)
        ∧ ((analyze_statements witRows).total_expense = 0 →
          (analyze_statements witRows).category_expense_percentages = [])) :=
  ⟨by decide, claim_C5 witRows (by decide)⟩

/-- Witness for C8 at a concrete cache satisfying the hour invariant. -/
theorem claim_C8_witness :
    (∀ t ∈ witFrame.rows, t.hour = dt_hour t.date)
      ∧ ((query_bank_statement (some witFrame) "预测中午12点" witDate).1 = some witFrame
        ∧ (predict_activity witFrame "12").1 = witFrame) :=
  ⟨by decide, claim_C8 witFrame "预测中午12点" witDate "12" (by decide)⟩

/-- Witness for C9 at a concrete transaction set. -/
theorem claim_C9_witness :
    (∀ t ∈ witRows, t.is_income = false → t.amount ≤ 0)
      ∧ ((witRows.filter (fun t => !t.is_income) = [] →
          (analyze_statements witRows).largest_expense = 0
            ∧ (analyze_statements witRows).smallest_expense = some 0)
        ∧ (witRows.filter (fun t => !t.is_income) ≠ [] →
            ∃ t ∈ witRows.filter (fun t => !t.is_income),
              (analyze_statements witRows).largest_expense = t.amount
                ∧ ∀ u ∈ witRows.filter (fun t => !t.is_income), |u.amount| ≤ |t.amount|)
        ∧ ((witRows.filter (fun t => !t.is_income)).filter (fun t => decide (t.amount ≠ 0)) ≠ [] →
            ∃ t ∈ (witRows.filter (fun t => !t.is_income)).filter (fun t => decide (t.amount ≠ 0)),
              (analyze_statements witRows).smallest_expense = some t.amount
                ∧ ∀ u ∈ (witRows.filter (fun t => !t.is_income)).filter
                    (fun t => decide (t.amount ≠ 0)),
                    |t.amount| ≤ |u.amount|)) :=
  ⟨by decide, claim_C9 witRows (by decide)⟩

/-- Witness for C10 at a concrete rule set and frame. -/
theorem claim_C10_witness :
    ((apply_category [("餐饮", ["面"])] { rows := [witTxIncome], hasCategory := false }).rows.map
        (fun t => t.category) = ["其他"])
      ∧ ∀ t ∈ (apply_category [("餐饮", ["面"])]
          { rows := [witTxIncome], hasCategory := false }).rows,
          t.is_income = true → (t.category = "其他" ∨ t.category = "收入") := by
  refine ⟨by decide, ?_⟩
  intro t ht hinc
  exact claim_C10 [("餐饮", ["面"])] { rows := [witTxIncome], hasCategory := false } t ht hinc

/-- C7 (amended): the category step of the answerer cascade works for the six
hard-coded category names only. For each category c in that built-in list, a
query c支出 or 在c上花了多少 returns c's expense magnitude and a query c收入
returns c's income, provided the frame carries the category column. -/
theorem claim_C7 (df : Frame) (hcat : df.hasCategory = true) (today : Int)
    (c : String) (hc : c ∈ fixedCategories) :
    answer_query df (c ++ "支出") today
        = .ok ("您在" ++ c ++ "上的支出是 "
            ++ fmtFixed2 |(txAmounts (df.rows.filter
                (fun t => t.category == c && !t.is_income))).sum| ++ " 元。")
      ∧ answer_query df ("在" ++ c ++ "上花了多少") today
        = .ok ("您在" ++ c ++ "上的支出是 "
            ++ fmtFixed2 |(txAmounts (df.rows.filter
                (fun t => t.category == c && !t.is_income))).sum| ++ " 元。")
      ∧ answer_query df (c ++ "收入") today
        = .ok ("您在" ++ c ++ "上的收入是 "
            ++ fmtFixed2 (txAmounts (df.rows.filter
                (fun t => t.category == c && t.is_income))).sum ++ " 元。") := by
  fin_cases hc
  · refine ⟨?_, ?_, ?_⟩
    · rw [show answer_query df ("餐饮" ++ "支出") today
          = category_expense_answer df "餐饮" from rfl]
      unfold category_expense_answer
      rw [if_pos hcat]
    · rw [show answer_query df ("在" ++ "餐饮" ++ "上花了多少") today
          = category_expense_answer df "餐饮" from rfl]
      unfold category_expense_answer
      rw [if_pos hcat]
    · rw [show answer_query df ("餐饮" ++ "收入") today
          = category_income_answer df "餐饮" from rfl]
      unfold category_income_answer
      rw [if_pos hcat]
  · refine ⟨?_, ?_, ?_⟩
    · rw [show answer_query df ("交通" ++ "支出") today
          = category_expense_answer df "交通" from rfl]
      unfold category_expense_answer
      rw [if_pos hcat]
    · rw [show answer_query df ("在" ++ "交通" ++ "上花了多少") today
          = category_expense_answer df "交通" from rfl]
      unfold category_expense_answer
      rw [if_pos hcat]
    · rw [show answer_query df ("交通" ++ "收入") today
          = category_income_answer df "交通" from rfl]
      unfold category_income_answer
      rw [if_pos hcat]
  · refine ⟨?_, ?_, ?_⟩
    · rw [show answer_query df ("购物" ++ "支出") today
          = category_expense_answer df "购物" from rfl]
      unfold category_expense_answer
      rw [if_pos hcat]
    · rw [show answer_query df ("在" ++ "购物" ++ "上花了多少") today
          = category_expense_answer df "购物" from rfl]
      unfold category_expense_answer
      rw [if_pos hcat]
    · rw [show answer_query df ("购物" ++ "收入") today
          = category_income_answer df "购物" from rfl]
      unfold category_income_answer
      rw [if_pos hcat]
  · refine ⟨?_, ?_, ?_⟩
    · rw [show answer_query df ("生活缴费" ++ "支出") today
          = category_expense_answer df "生活缴费" from rfl]
      unfold category_expense_answer
      rw [if_pos hcat]
    · rw [show answer_query df ("在" ++ "生活缴费" ++ "上花了多少") today
          = category_expense_answer df "生活缴费" from rfl]
      unfold category_expense_answer
      rw [if_pos hcat]
    · rw [show answer_query df ("生活缴费" ++ "收入") today
          = category_income_answer df "生活缴费" from rfl]
      unfold category_income_answer
      rw [if_pos hcat]
  · refine ⟨?_, ?_, ?_⟩
    · rw [show answer_query df ("娱乐" ++ "支出") today
          = category_expense_answer df "娱乐" from rfl]
      unfold category_expense_answer
      rw [if_pos hcat]
    · rw [show answer_query df ("在" ++ "娱乐" ++ "上花了多少") today
          = category_expense_answer df "娱乐" from rfl]
      unfold category_expense_answer
      rw [if_pos hcat]
    · rw [show answer_query df ("娱乐" ++ "收入") today
          = category_income_answer df "娱乐" from rfl]
      unfold category_income_answer
      rw [if_pos hcat]
  · refine ⟨?_, ?_, ?_⟩
    · rw [show answer_query df ("其他" ++ "支出") today
          = category_expense_answer df "其他" from rfl]
      unfold category_expense_answer
      rw [if_pos hcat]
    · rw [show answer_query df ("在" ++ "其他" ++ "上花了多少") today
          = category_expense_answer df "其他" from rfl]
      unfold category_expense_answer
      rw [if_pos hcat]
    · rw [show answer_query df ("其他" ++ "收入") today
          = category_income_answer df "其他" from rfl]
      unfold category_income_answer
      rw [if_pos hcat]

/-- Witness for C7 (amended) at a concrete categorized frame. -/
theorem claim_C7_witness :
    witFrame.hasCategory = true ∧ "餐饮" ∈ fixedCategories
      ∧ (answer_query witFrame ("餐饮" ++ "支出") witDate
          = .ok ("您在" ++ "餐饮" ++ "上的支出是 "
              ++ fmtFixed2 |(txAmounts (witFrame.rows.filter
                  (fun t => t.category == "餐饮" && !t.is_income))).sum| ++ " 元。")
        ∧ answer_query witFrame ("在" ++ "餐饮" ++ "上花了多少") witDate
          = .ok ("您在" ++ "餐饮" ++ "上的支出是 "
              ++ fmtFixed2 |(txAmounts (witFrame.rows.filter
                  (fun t => t.category == "餐饮" && !t.is_income))).sum| ++ " 元。")
        ∧ answer_query witFrame ("餐饮" ++ "收入") witDate
          = .ok ("您在" ++ "餐饮" ++ "上的收入是 "
              ++ fmtFixed2 (txAmounts (witFrame.rows.filter
                  (fun t => t.category == "餐饮" && t.is_income))).sum ++ " 元。")) :=
  ⟨rfl, by decide, claim_C7 witFrame rfl witDate "餐饮" (by decide)⟩

def petTx0 : Tx :=
  { date := mkDT 2023 10 15 10 0 0
    hour := 10
    amount := -50
    description := "猫粮"
    is_income := false
    expense_amount := 50
    income_amount := 0
    category := "" }

/-- A frame classified with a caller-supplied category rule set whose one
category name, 宠物, is outside the resolver's built-in list. -/
def petFrame : Frame :=
  apply_category [("宠物", ["猫粮"])] { rows := [petTx0], hasCategory := false }

def petToday : Int := mkDT 2023 10 31 12 0 0

/-- Counterexample to C7 as stated: 宠物 is a category known to the analysis
(it was produced by the caller's rule configuration and labels a row of the
frame), yet the query 宠物支出 does not return that category's expense
magnitude — it falls through the hard-coded category loop into the time-range
branch and returns the 30-day total instead. -/
theorem claim_C7_counterexample :
    petFrame.rows.map (fun t => t.category) = ["宠物"]
      ∧ answer_query petFrame "宠物支出" petToday
          = .ok "从 2023-10-01 到 2023-10-31，您的总支出是 50.00 元。"
      ∧ answer_query petFrame "宠物支出" petToday
          ≠ .ok ("您在宠物上的支出是 "
              ++ fmtFixed2 |(txAmounts (petFrame.rows.filter
                  (fun t => t.category == "宠物" && !t.is_income))).sum| ++ " 元。") := by
  have he1 : answer_query petFrame "宠物支出" petToday
      = .ok "从 2023-10-01 到 2023-10-31，您的总支出是 50.00 元。" := by
    with_unfolding_all rfl
  have he2 : ("您在宠物上的支出是 "
      ++ fmtFixed2 |(txAmounts (petFrame.rows.filter
          (fun t => t.category == "宠物" && !t.is_income))).sum| ++ " 元。")
      = "您在宠物上的支出是 50.00 元。" := by
    with_unfolding_all rfl
  refine ⟨by decide, he1, ?_⟩
  intro h
  rw [he1, he2] at h
  injection h with h2
  exact absurd h2 (by decide)

/-- The CSV content of MOCK_CSV_CONTENT_BASIC from tests/test_core.py, as a
parsed table. -/
def mockTable : CsvTable :=
  { headers := ["日期", "时间", "交易类型", "金额", "商户/摘要"]
    cells := [
      ["2023-10-01", "10:00", "收入", "1000.00", "工资入账"],
      ["2023-10-02", "11:00", "支出", "-50.00", "星巴克咖啡"],
      ["2023-10-03", "12:00", "支出", "-120.00", "麻辣烫午餐"],
      ["2023-10-04", "13:00", "支出", "-30.00", "公交卡充值"],
      ["2023-10-05", "14:00", "支出", "-200.00", "超市购物"],
      ["2023-10-06", "15:00", "支出", "-15.00", "便利店零食"],
      ["2023-10-07", "16:00", "支出", "-80.00", "电影票"],
      ["2023-10-08", "12:30", "支出", "-60.00", "KTV"],
      ["2023-10-09", "09:00", "支出", "-500.00", "健身房年费"]] }

/-- C1 is violated by the code: the source assigns the cache right after
preprocess_data and before apply_category, so after a successful
analyze_bank_statement the cached frame has no category column at all. A
category query against that cache then hits a KeyError, which the query
wrapper converts into the apology string — it does not contain the
170.00 answer the repository's own test
test_query_bank_statement_category_expense asserts. -/
theorem claim_C1_code_bug :
    ((analyze_bank_statement none "test_basic_statement.csv" (some mockTable) witCfg).1.map
        Frame.hasCategory = some false)
      ∧ ((query_bank_statement
            (analyze_bank_statement none "test_basic_statement.csv" (some mockTable) witCfg).1
            "我的餐饮支出是多少？" (mkDT 2023 10 9 12 0 0)).2
          = .ok "抱歉，处理您的查询时发生错误：\x27category\x27")
      ∧ containsSub "抱歉，处理您的查询时发生错误：\x27category\x27" "170.00" = false := by
  refine ⟨?_, ?_, ?_⟩
  · with_unfolding_all rfl
  · with_unfolding_all rfl
  · decide

/-- preprocess_data output shape: no category column yet, and the hour column
equals the hour of the date column (the invariant behind C8). -/
lemma preprocess_ok_shape (raw : RawFrame) (m : ColumnMapping) (df : Frame)
    (h : preprocess_data raw m = .ok df) :
    df.hasCategory = false ∧ ∀ t ∈ df.rows, t.hour = dt_hour t.date := by
  unfold preprocess_data at h
  split at h <;> split at h <;> try split at h
  all_goals first
    | (injection h with h2
       subst h2
       refine ⟨rfl, ?_⟩
       intro t ht
       obtain ⟨r, hr, heq⟩ := List.mem_map.mp ht
       rw [← heq])
    | exact absurd h (by simp)

/-- Every successful analyze_bank_statement call leaves in the cache a frame
produced by preprocess_data: it has no category column and satisfies the
hour invariant. This is the general fact behind the C1 bug evaluation and
behind the hypothesis of C8. -/
lemma analyze_ok_cache (cache : Option Frame) (path : String) (file : Option CsvTable)
    (cfg : AppConfig) (s : String)
    (h : (analyze_bank_statement cache path file cfg).2 = .ok s) :
    ∃ df, (analyze_bank_statement cache path file cfg).1 = some df
      ∧ df.hasCategory = false ∧ ∀ t ∈ df.rows, t.hour = dt_hour t.date := by
  unfold analyze_bank_statement at h ⊢
  split at h
  · simp at h
  · rename_i raw heq
    split at h
    · simp at h
    · rename_i df heq2
      obtain ⟨h1, h2⟩ := preprocess_ok_shape raw cfg.column_mapping df heq2
      exact ⟨df, rfl, h1, h2⟩

/-- preprocess_data also establishes the sign invariant assumed by the
aggregator theorems: a row not flagged as income has a nonpositive amount
(is_income is defined as amount > 0). -/
lemma preprocess_sign (raw : RawFrame) (m : ColumnMapping) (df : Frame)
    (h : preprocess_data raw m = .ok df) :
    ∀ t ∈ df.rows, t.is_income = false → t.amount ≤ 0 := by
  unfold preprocess_data at h
  split at h <;> split at h <;> try split at h
  all_goals first
    | (injection h with h2
       subst h2
       intro t ht hfalse
       obtain ⟨r, hr, heq⟩ := List.mem_map.mp ht
       rw [← heq] at hfalse ⊢
       have hfa : decide ((0 : ℚ) < (parseAmount r.amount_str).getD 0) = false := hfalse
       show (parseAmount r.amount_str).getD 0 ≤ 0
       exact le_of_not_lt (of_decide_eq_false hfa))
    | exact absurd h (by simp)
